import Mathlib

/-!
# Session-and-token authentication service (server/*.js)

A shallow embedding of the authentication core of the repository:
`server/storage.js` (credential store), `server/security.js` (credential
verifier), `server/tokens.js` (token issuer) and `server/index.js` (session
manager), followed by theorems about it.

Conventions of the embedding.

* JavaScript strings are `String`; `!s` on a string is `s = ""`.
* A value that may be `null`/`undefined` is an `Option`.
* The module-level caches `usersCache` / `sessionsCache` are passed explicitly:
  every operation takes the current list and returns the next one.
* `Date.now()` is an explicit argument (milliseconds, an integer); every call
  site of a handler receives its own reading through `Clock`.
* `randomBytes` / `randomUUID` draws are explicit arguments (`Draw`).
* A JavaScript exception is `Except.error`.
* Built-ins of the Node runtime that the repository only calls (SHA-256, HMAC,
  scrypt, `Date.parse`, `toISOString`, `toLowerCase`, JSON + base64url of the
  token payload) are fields of `Env`, together with the configuration read from
  `process.env`.
-/

namespace Celec

/-! ## Data model -/

/-- One octet of a `Buffer`. -/
abbrev Byte := Fin 256

/-- User record of `users.json`. -/
structure User where
  id : String
  email : String
  name : String
  role : String
  passwordHash : Option String
  deriving DecidableEq, Repr

/-- Session record of `sessions.json`: one outstanding refresh-token grant. -/
structure Session where
  id : String
  userId : String
  refreshTokenHash : String
  createdAt : String
  expiresAt : String
  revokedAt : Option String
  deriving DecidableEq, Repr

/-- Payload of an access token, as `createAccessToken` builds it. `exp` and
`iat` are whole seconds; `none` stands for an absent or `null` field. -/
structure Payload where
  sub : String
  email : String
  role : String
  name : String
  exp : Option Int
  iat : Option Int
  deriving DecidableEq, Repr

/-- Exceptions the modelled code can raise. -/
inductive JsError where
  | uriError
  | rangeError
  deriving DecidableEq, Repr

/-- Node built-ins and `process.env` configuration used by the server. -/
structure Env where
  /-- Built-in `createHash('sha256').update(token).digest('hex')` -/
  sha256Hex : String → String
  /-- Built-in `createHmac('sha256', secret).update(data).digest('base64url')`, as
  `hmacSha256 secret data` -/
  hmacSha256 : String → String → String
  /-- Built-in `scryptSync(password, salt, keylen)` -/
  scryptSync : String → String → Nat → List Byte
  /-- Built-in `Date.parse(s)`; `none` is `NaN` -/
  dateParse : String → Option Int
  /-- Built-in `new Date(t).toISOString()`; `none` is the `RangeError` of an invalid date -/
  toISOString : Int → Option String
  /-- Built-in `String.prototype.toLowerCase` -/
  toLowerCase : String → String
  /-- Built-in `Buffer.from(JSON.stringify(payload)).toString('base64url')` -/
  encodePayload : Payload → String
  /-- Built-in `JSON.parse(Buffer.from(segment, 'base64url').toString('utf-8'))` followed
  by the read of `.exp`; `none` when either throws -/
  decodePayload : String → Option Payload
  ACCESS_TOKEN_SECRET : String
  ACCESS_TOKEN_TTL_MINUTES : Int
  REFRESH_TOKEN_TTL_DAYS : Int
  /-- Built-in `(process.env.NODE_ENV ?? '').toLowerCase() === 'production'` -/
  production : Bool

/-- Embeds `!!value` for a value that is `null` or a string. -/
def truthy : Option String → Bool
  | none => false
  | some s => s != ""

/-! ## String primitives -/

/-- Embeds `s.split(sep)` for a one-character separator, on the characters. -/
def splitChars (sep : Char) : List Char → List (List Char)
  | [] => [[]]
  | c :: cs =>
    if c = sep then [] :: splitChars sep cs
    else
      match splitChars sep cs with
      | [] => [[c]]
      | p :: ps => (c :: p) :: ps

/-- Embeds `s.split(sep)` for a one-character separator. -/
def jsSplit (sep : Char) (s : String) : List String :=
  (splitChars sep s.data).map String.mk

/-- White space and line terminators removed by `String.prototype.trim`. -/
def isTrimChar (c : Char) : Bool :=
  let n := c.toNat
  n == 0x09 || n == 0x0A || n == 0x0B || n == 0x0C || n == 0x0D || n == 0x20 ||
  n == 0xA0 || n == 0x1680 || (0x2000 ≤ n && n ≤ 0x200A) || n == 0x2028 ||
  n == 0x2029 || n == 0x202F || n == 0x205F || n == 0x3000 || n == 0xFEFF

/-- Embeds `s.trim()` on the characters. -/
def trimChars (cs : List Char) : List Char :=
  ((cs.dropWhile isTrimChar).reverse.dropWhile isTrimChar).reverse

/-- Embeds `s.trim()`. -/
def jsTrim (s : String) : String :=
  String.mk (trimChars s.data)

/-- Value of a hexadecimal digit, either case. -/
def hexVal (c : Char) : Option Nat :=
  let n := c.toNat
  if 48 ≤ n ∧ n ≤ 57 then some (n - 48)
  else if 97 ≤ n ∧ n ≤ 102 then some (n - 87)
  else if 65 ≤ n ∧ n ≤ 70 then some (n - 55)
  else none

/-- Lower-case hexadecimal digit of a value below 16. -/
def hexDigit (n : Nat) : Char :=
  if n < 10 then Char.ofNat (48 + n) else Char.ofNat (87 + n)

/-- Embeds `buffer.toString('hex')` on the characters. -/
def hexEncodeChars : List Byte → List Char
  | [] => []
  | b :: bs => hexDigit (b.val / 16) :: hexDigit (b.val % 16) :: hexEncodeChars bs

/-- Embeds `buffer.toString('hex')`. -/
def hexEncode (bs : List Byte) : String :=
  String.mk (hexEncodeChars bs)

/-- Embeds `Buffer.from(s, 'hex')` on the characters: whole pairs of hexadecimal digits
are decoded up to the first pair that is not one; a trailing single character
is dropped. -/
def hexDecodeChars : List Char → List Byte
  | a :: b :: rest =>
    match hexVal a, hexVal b with
    | some x, some y => Fin.ofNat (16 * x + y) :: hexDecodeChars rest
    | _, _ => []
  | _ => []

/-- Embeds `Buffer.from(s, 'hex')`. -/
def hexDecode (s : String) : List Byte :=
  hexDecodeChars s.data

/-- Character of the base64url alphabet for a value below 64. -/
def base64UrlChar (n : Nat) : Char :=
  if n < 26 then Char.ofNat (65 + n)
  else if n < 52 then Char.ofNat (97 + (n - 26))
  else if n < 62 then Char.ofNat (48 + (n - 52))
  else if n = 62 then '-'
  else '_'

/-- Embeds `buffer.toString('base64url')` on the characters (no padding). -/
def base64UrlChars : List Byte → List Char
  | a :: b :: c :: rest =>
    base64UrlChar (a.val / 4) ::
    base64UrlChar ((a.val % 4) * 16 + b.val / 16) ::
    base64UrlChar ((b.val % 16) * 4 + c.val / 64) ::
    base64UrlChar (c.val % 64) :: base64UrlChars rest
  | [a, b] =>
    [base64UrlChar (a.val / 4),
     base64UrlChar ((a.val % 4) * 16 + b.val / 16),
     base64UrlChar ((b.val % 16) * 4)]
  | [a] =>
    [base64UrlChar (a.val / 4), base64UrlChar ((a.val % 4) * 16)]
  | [] => []

/-! ## server/storage.js -/

/-- Embeds `findUserByEmail(email)`: first user whose lower-cased email equals the
lower-cased argument. -/
def findUserByEmail (env : Env) (users : List User) (email : String) : Option User :=
  users.find? (fun user => env.toLowerCase user.email == env.toLowerCase email)

/-- Embeds `findUserById(id)`. -/
def findUserById (users : List User) (id : String) : Option User :=
  users.find? (fun user => user.id == id)

/-- Embeds `createSession(session)`: `sessions.push(session)`. -/
def createSession (sessions : List Session) (session : Session) : List Session :=
  sessions ++ [session]

/-- Embeds `removeSession(sessionId)`. -/
def removeSession (sessions : List Session) (sessionId : String) : List Session :=
  sessions.filter (fun session => session.id != sessionId)

/-- Embeds `findSessionByHash(hash)`. -/
def findSessionByHash (sessions : List Session) (hash : String) : Option Session :=
  sessions.find? (fun session => session.refreshTokenHash == hash && !truthy session.revokedAt)

/-- The filter predicate of `clearExpiredSessions`:
`Number.isFinite(expires) && expires > now && !session.revokedAt`. -/
def keptBySweep (env : Env) (now : Int) (session : Session) : Bool :=
  match env.dateParse session.expiresAt with
  | some expires => decide (expires > now) && !truthy session.revokedAt
  | none => false

/-- Embeds `clearExpiredSessions(now)`: the store is rewritten only when the filter
dropped a record. -/
def clearExpiredSessions (env : Env) (now : Int) (sessions : List Session) : List Session :=
  let filtered := sessions.filter (keptBySweep env now)
  if filtered.length != sessions.length then filtered else sessions

/-! ## server/security.js -/

/-- The constant `KEY_LENGTH`. -/
def KEY_LENGTH : Nat := 64

/-- Embeds `hashPassword(password)`, with the 16 bytes drawn by `randomBytes(16)` as
`rnd`. -/
def hashPassword (env : Env) (rnd : List Byte) (password : String) : String :=
  let salt := hexEncode rnd
  let derived := hexEncode (env.scryptSync password salt KEY_LENGTH)
  salt ++ ":" ++ derived

/-- Embeds `verifyPassword(password, hash)`. -/
def verifyPassword (env : Env) (password : String) (hash : Option String) : Bool :=
  match hash with
  | none => false
  | some hash =>
    if hash = "" then false
    else
      let parts := jsSplit ':' hash
      match parts with
      | salt :: key :: _ =>
        if salt = "" || key = "" then false
        else
          let derived := hexEncode (env.scryptSync password salt KEY_LENGTH)
          let keyBuffer := hexDecode key
          let derivedBuffer := hexDecode derived
          if keyBuffer.length != derivedBuffer.length then false
          else decide (keyBuffer = derivedBuffer)
      | _ => false

/-- Embeds `generateRandomToken(bytes)`, with the bytes drawn by `randomBytes(bytes)`
as `rnd`. -/
def generateRandomToken (rnd : List Byte) : String :=
  String.mk (base64UrlChars rnd)

/-- Embeds `hashToken(token)`. -/
def hashToken (env : Env) (token : String) : String :=
  env.sha256Hex token

/-! ## server/tokens.js -/

/-- Embeds `base64UrlEncode(header)` for the constant header `alg: HS256, typ: JWT`. -/
def headerSegment : String := "eyJhbGciOiJIUzI1NiIsInR5cCI6IkpXVCJ9"

/-- Embeds `sign(data, secret)`. -/
def sign (env : Env) (data secret : String) : String :=
  env.hmacSha256 secret data

/-- Embeds `createAccessToken(user, secret, expiresInSeconds)`; `nowExp` and `nowIat`
are the two readings of `Date.now()`. Returns `token` and `expiresAt`. -/
def createAccessToken (env : Env) (nowExp nowIat : Int) (user : User)
    (secret : String) (expiresInSeconds : Int) : Except JsError (String × String) :=
  let exp := Int.fdiv nowExp 1000 + expiresInSeconds
  let payload : Payload :=
    { sub := user.id, email := user.email, role := user.role, name := user.name,
      exp := some exp, iat := some (Int.fdiv nowIat 1000) }
  let payloadSegment := env.encodePayload payload
  let data := headerSegment ++ "." ++ payloadSegment
  let signature := sign env data secret
  match env.toISOString (exp * 1000) with
  | none => .error .rangeError
  | some expiresAt => .ok (data ++ "." ++ signature, expiresAt)

/-- The test `payload.exp && Date.now() / 1000 > payload.exp`, with `now` the
reading of `Date.now()` in milliseconds: for a whole number of seconds `exp`,
`now / 1000 > exp` is `now > exp * 1000`. -/
def expiredAt (now : Int) (payload : Payload) : Bool :=
  match payload.exp with
  | none => false
  | some exp => exp != 0 && decide (now > exp * 1000)

/-- Embeds `verifyToken(token, secret)`; `none` is the `null` result. -/
def verifyToken (env : Env) (now : Int) (token secret : String) : Option Payload :=
  if token = "" then none
  else
    match jsSplit '.' token with
    | [headerSegment, payloadSegment, signature] =>
      let data := headerSegment ++ "." ++ payloadSegment
      let expected := sign env data secret
      if expected != signature then none
      else
        match env.decodePayload payloadSegment with
        | none => none
        | some payload => if expiredAt now payload then none else some payload
    | _ => none

/-! ## server/index.js -/

/-- The constant `ACCESS_TOKEN_TTL_SECONDS`. -/
def ACCESS_TOKEN_TTL_SECONDS (env : Env) : Int :=
  max (env.ACCESS_TOKEN_TTL_MINUTES * 60) 60

/-- The constant `REFRESH_TOKEN_TTL_MS`. -/
def REFRESH_TOKEN_TTL_MS (env : Env) : Int :=
  max (env.REFRESH_TOKEN_TTL_DAYS * 24 * 60 * 60 * 1000) (24 * 60 * 60 * 1000)

/-- The constant `REFRESH_COOKIE`. -/
def REFRESH_COOKIE : String := "refreshToken"

/-- Number of leading one bits of an octet. -/
def leadingOnes (b : Nat) : Nat :=
  if b < 0x80 then 0
  else if b < 0xC0 then 1
  else if b < 0xE0 then 2
  else if b < 0xF0 then 3
  else if b < 0xF8 then 4
  else 5

/-- Whether an octet is a UTF-8 continuation octet. -/
def isContinuation (b : Nat) : Bool :=
  0x80 ≤ b && b < 0xC0

/-- Code point of a two-octet UTF-8 sequence, when it is valid. -/
def utf8Two (b c1 : Nat) : Option Char :=
  let v := (b % 32) * 64 + c1 % 64
  if isContinuation c1 && 0x80 ≤ v then some (Char.ofNat v) else none

/-- Code point of a three-octet UTF-8 sequence, when it is valid. -/
def utf8Three (b c1 c2 : Nat) : Option Char :=
  let v := (b % 16) * 4096 + (c1 % 64) * 64 + c2 % 64
  if isContinuation c1 && isContinuation c2 && 0x800 ≤ v && !(0xD800 ≤ v && v ≤ 0xDFFF)
  then some (Char.ofNat v) else none

/-- Code point of a four-octet UTF-8 sequence, when it is valid. -/
def utf8Four (b c1 c2 c3 : Nat) : Option Char :=
  let v := (b % 8) * 262144 + (c1 % 64) * 4096 + (c2 % 64) * 64 + c3 % 64
  if isContinuation c1 && isContinuation c2 && isContinuation c3 && 0x10000 ≤ v && v ≤ 0x10FFFF
  then some (Char.ofNat v) else none

/-- Octet written as a percent escape by the three characters `p a b`. -/
def escapeOctet (p a b : Char) : Option Nat :=
  if p = '%' then
    match hexVal a, hexVal b with
    | some x, some y => some (16 * x + y)
    | _, _ => none
  else none

/-- Octet of the `k`-th of the consecutive percent escapes at the head of `cs`. -/
def octetAt (cs : List Char) (k : Nat) : Option Nat :=
  match cs.drop (3 * k) with
  | p :: a :: b :: _ => escapeOctet p a b
  | _ => none

/-- The escape sequence at the head of `cs`: the character whose UTF-8 encoding
its one to four escapes spell, and the number of characters it takes. `none` is
`URIError`: a truncated escape, a digit that is not hexadecimal, or octets that
are not the UTF-8 encoding of a code point. -/
def escapeAt (cs : List Char) : Option (Char × Nat) :=
  match octetAt cs 0 with
  | none => none
  | some o =>
    if leadingOnes o = 0 then some (Char.ofNat o, 3)
    else if leadingOnes o = 2 then
      (octetAt cs 1).bind (fun o1 => (utf8Two o o1).map (fun ch => (ch, 6)))
    else if leadingOnes o = 3 then
      (octetAt cs 1).bind (fun o1 => (octetAt cs 2).bind (fun o2 =>
        (utf8Three o o1 o2).map (fun ch => (ch, 9))))
    else if leadingOnes o = 4 then
      (octetAt cs 1).bind (fun o1 => (octetAt cs 2).bind (fun o2 =>
        (octetAt cs 3).bind (fun o3 => (utf8Four o o1 o2 o3).map (fun ch => (ch, 12)))))
    else none

/-- Embeds `decodeURIComponent` on the characters; `skip` counts the characters ahead
that belong to an escape sequence already decoded. A character other than `%` is
copied, an escape sequence is replaced by its character, a malformed one
raises `URIError`. -/
def decodeURIFrom : Nat → List Char → Except JsError (List Char)
  | _, [] => .ok []
  | skip + 1, _ :: cs => decodeURIFrom skip cs
  | 0, c :: cs =>
    if c ≠ '%' then
      match decodeURIFrom 0 cs with
      | .ok out => .ok (c :: out)
      | .error e => .error e
    else
      match escapeAt (c :: cs) with
      | none => .error .uriError
      | some (ch, taken) =>
        match decodeURIFrom (taken - 1) cs with
        | .ok out => .ok (ch :: out)
        | .error e => .error e

/-- Embeds `decodeURIComponent` on the characters. -/
def decodeURIChars (cs : List Char) : Except JsError (List Char) :=
  decodeURIFrom 0 cs

/-- Embeds `decodeURIComponent(s)`. -/
def decodeURIComponent (s : String) : Except JsError String :=
  match decodeURIChars s.data with
  | .ok out => .ok (String.mk out)
  | .error e => .error e

/-- The `cookies` object built by `parseCookies`: own properties, newest first. -/
abbrev Cookies := List (String × String)

/-- The assignment `cookies[key] = value` on an object literal. Assigning a string to
`__proto__` creates no property. -/
def setCookie (cookies : Cookies) (key value : String) : Cookies :=
  if key = "__proto__" then cookies
  else (key, value) :: cookies.filter (fun entry => entry.1 != key)

/-- The read `cookies[key]` for a key that `Object.prototype` does not define. -/
def getCookie (cookies : Cookies) (key : String) : Option String :=
  (cookies.find? (fun entry => entry.1 == key)).map (fun entry => entry.2)

/-- The reducer of `parseCookies`, applied to one part of the header. -/
def parseCookiePart (cookies : Cookies) (part : String) : Except JsError Cookies :=
  match jsSplit '=' part with
  | [] => .ok cookies
  | key :: rest =>
    if key = "" then .ok cookies
    else
      let value := jsTrim (String.intercalate "=" rest)
      match decodeURIComponent value with
      | .error e => .error e
      | .ok decoded => .ok (setCookie cookies (jsTrim key) decoded)

/-- The `reduce` of `parseCookies` over the parts of the header. -/
def parseCookieParts : Cookies → List String → Except JsError Cookies
  | cookies, [] => .ok cookies
  | cookies, part :: parts =>
    match parseCookiePart cookies part with
    | .error e => .error e
    | .ok next => parseCookieParts next parts

/-- Embeds `parseCookies(req)`, with `req.headers?.cookie` as `header`. -/
def parseCookies (header : Option String) : Except JsError Cookies :=
  match header with
  | none => .ok []
  | some header =>
    if header = "" then .ok []
    else parseCookieParts [] (jsSplit ';' header)

/-- The `user` object of a response, built by `buildUserPayload`. -/
structure UserPayload where
  id : String
  email : String
  name : String
  role : String
  type : String
  deriving DecidableEq, Repr

/-- JSON bodies the handlers send. -/
inductive Body where
  | message (message : String)
  | session (user : UserPayload) (accessToken accessTokenExpiresAt : String)
  | login (user : UserPayload)
      (accessToken accessTokenExpiresAt refreshToken refreshTokenExpiresAt : String)
  deriving DecidableEq, Repr

/-- What `jsonResponse` writes: status code, JSON body and `Set-Cookie` values. -/
structure Response where
  statusCode : Nat
  payload : Body
  cookies : List String
  deriving DecidableEq, Repr

/-- Readings of `Date.now()` (and of `new Date()`) during one request, one per
call site. -/
structure Clock where
  /-- Reading for the default argument of `clearExpiredSessions` -/
  sweep : Int
  /-- Reading in `getSessionFromRequest` -/
  check : Int
  /-- Reading in `createAccessToken`, for `exp` -/
  tokenExp : Int
  /-- Reading in `createAccessToken`, for `iat` -/
  tokenIat : Int
  /-- Reading in `createRefreshSession`, for `expiresAt` -/
  sessionExpires : Int
  /-- Reading in `createRefreshSession`, for `createdAt` -/
  sessionCreated : Int
  /-- Reading in `createRefreshCookie` -/
  cookie : Int

/-- Random draws of one request. -/
structure Draw where
  /-- Bytes of `randomBytes(48)` in `generateRandomToken(48)` -/
  tokenBytes : List Byte
  /-- Value of `randomUUID()` -/
  uuid : String

/-- Body of a login request after `readJsonBody`: the string fields, when present. -/
structure LoginBody where
  email : Option String
  password : Option String

/-- Embeds `jsonResponse(res, statusCode, payload, cookies)`. -/
def jsonResponse (statusCode : Nat) (payload : Body) (cookies : List String) : Response :=
  { statusCode := statusCode, payload := payload, cookies := cookies }

/-- Embeds `errorResponse(res, statusCode, message)`. -/
def errorResponse (statusCode : Nat) (message : String) : Response :=
  jsonResponse statusCode (.message message) []

/-- Embeds `unauthorized(res, message)`. -/
def unauthorized (message : String) : Response :=
  errorResponse 401 message

/-- The `catch` of the request listener: an exception without an integer
`statusCode` is answered with status 500. -/
def respond (result : Except JsError Response) : Response :=
  match result with
  | .ok response => response
  | .error _ => errorResponse 500 "Error interno del servidor"

/-- Embeds `createRefreshCookie(token, expiresAt)`; `Max-Age` is `NaN` when the date
does not parse. -/
def createRefreshCookie (env : Env) (now : Int) (token expiresAt : String) : String :=
  let maxAgeSeconds :=
    match env.dateParse expiresAt with
    | some t => toString (max (Int.fdiv (t - now) 1000) 0)
    | none => "NaN"
  let attributes :=
    [REFRESH_COOKIE ++ "=" ++ token, "Path=/", "HttpOnly", "SameSite=Lax",
      "Max-Age=" ++ maxAgeSeconds]
  String.intercalate "; " (if env.production then attributes ++ ["Secure"] else attributes)

/-- Embeds `clearRefreshCookie()`. -/
def clearRefreshCookie (env : Env) : String :=
  let attributes :=
    [REFRESH_COOKIE ++ "=", "Path=/", "HttpOnly", "SameSite=Lax", "Max-Age=0"]
  String.intercalate "; " (if env.production then attributes ++ ["Secure"] else attributes)

/-- Embeds `buildUserPayload(user)`. -/
def buildUserPayload (user : User) : UserPayload :=
  { id := user.id, email := user.email, name := user.name, role := user.role,
    type := user.role }

/-- Embeds `createRefreshSession(userId)`: returns the refresh token, the new record and
the store after `createSession`. -/
def createRefreshSession (env : Env) (clock : Clock) (draw : Draw)
    (sessions : List Session) (userId : String) :
    Except JsError (String × Session × List Session) :=
  let refreshToken := generateRandomToken draw.tokenBytes
  match env.toISOString (clock.sessionExpires + REFRESH_TOKEN_TTL_MS env) with
  | none => .error .rangeError
  | some expiresAt =>
    match env.toISOString clock.sessionCreated with
    | none => .error .rangeError
    | some createdAt =>
      let session : Session :=
        { id := draw.uuid, userId := userId,
          refreshTokenHash := hashToken env refreshToken,
          createdAt := createdAt, expiresAt := expiresAt, revokedAt := none }
      .ok (refreshToken, session, createSession sessions session)

/-- The non-null result of `getSessionFromRequest`. -/
structure Resolved where
  token : String
  session : Session
  user : User
  deriving DecidableEq, Repr

/-- Embeds `getSessionFromRequest(req)`, with `req.headers?.cookie` as `cookieHeader`
and `now` the reading of `Date.now()`: the result (`none` is `null`) and the
store it leaves. -/
def getSessionFromRequest (env : Env) (now : Int) (users : List User)
    (sessions : List Session) (cookieHeader : Option String) :
    Except JsError (Option Resolved × List Session) :=
  match parseCookies cookieHeader with
  | .error e => .error e
  | .ok cookies =>
    match getCookie cookies REFRESH_COOKIE with
    | none => .ok (none, sessions)
    | some token =>
      if token = "" then .ok (none, sessions)
      else
        match findSessionByHash sessions (hashToken env token) with
        | none => .ok (none, sessions)
        | some session =>
          match env.dateParse session.expiresAt with
          | none => .ok (none, removeSession sessions session.id)
          | some expires =>
            if expires ≤ now then .ok (none, removeSession sessions session.id)
            else
              match findUserById users session.userId with
              | none => .ok (none, removeSession sessions session.id)
              | some user => .ok (some { token := token, session := session, user := user }, sessions)

/-- Embeds `handleLogin(req, res)`: the response (or the exception) and the session
store it leaves. -/
def handleLogin (env : Env) (clock : Clock) (draw : Draw) (users : List User)
    (sessions : List Session) (body : LoginBody) :
    Except JsError Response × List Session :=
  let email := jsTrim (body.email.getD "")
  let password := body.password.getD ""
  if email = "" || password = "" then
    (.ok (errorResponse 400 "Correo y contraseña son obligatorios"), sessions)
  else
    match findUserByEmail env users email with
    | none => (.ok (unauthorized "Credenciales incorrectas"), sessions)
    | some user =>
      if !verifyPassword env password user.passwordHash then
        (.ok (unauthorized "Credenciales incorrectas"), sessions)
      else
        let swept := clearExpiredSessions env clock.sweep sessions
        match createAccessToken env clock.tokenExp clock.tokenIat user
            env.ACCESS_TOKEN_SECRET (ACCESS_TOKEN_TTL_SECONDS env) with
        | .error e => (.error e, swept)
        | .ok (accessToken, accessExpiresAt) =>
          match createRefreshSession env clock draw swept user.id with
          | .error e => (.error e, swept)
          | .ok (refreshToken, session, stored) =>
            (.ok (jsonResponse 200
              (.login (buildUserPayload user) accessToken accessExpiresAt refreshToken
                session.expiresAt)
              [createRefreshCookie env clock.cookie refreshToken session.expiresAt]), stored)

/-- Embeds `handleSession(req, res)`. -/
def handleSession (env : Env) (clock : Clock) (users : List User)
    (sessions : List Session) (cookieHeader : Option String) :
    Except JsError Response × List Session :=
  let swept := clearExpiredSessions env clock.sweep sessions
  match getSessionFromRequest env clock.check users swept cookieHeader with
  | .error e => (.error e, swept)
  | .ok (none, left) => (.ok (unauthorized "No hay una sesión activa"), left)
  | .ok (some current, left) =>
    match createAccessToken env clock.tokenExp clock.tokenIat current.user
        env.ACCESS_TOKEN_SECRET (ACCESS_TOKEN_TTL_SECONDS env) with
    | .error e => (.error e, left)
    | .ok (accessToken, expiresAt) =>
      (.ok (jsonResponse 200
        (.session (buildUserPayload current.user) accessToken expiresAt)
        [createRefreshCookie env clock.cookie current.token current.session.expiresAt]), left)

/-- Embeds `handleRefresh(req, res)`. -/
def handleRefresh (env : Env) (clock : Clock) (draw : Draw) (users : List User)
    (sessions : List Session) (cookieHeader : Option String) :
    Except JsError Response × List Session :=
  let swept := clearExpiredSessions env clock.sweep sessions
  match getSessionFromRequest env clock.check users swept cookieHeader with
  | .error e => (.error e, swept)
  | .ok (none, left) => (.ok (unauthorized "El refresh token no es válido"), left)
  | .ok (some current, left) =>
    let removed := removeSession left current.session.id
    match createRefreshSession env clock draw removed current.user.id with
    | .error e => (.error e, removed)
    | .ok (refreshToken, newSession, stored) =>
      match createAccessToken env clock.tokenExp clock.tokenIat current.user
          env.ACCESS_TOKEN_SECRET (ACCESS_TOKEN_TTL_SECONDS env) with
      | .error e => (.error e, stored)
      | .ok (accessToken, expiresAt) =>
        (.ok (jsonResponse 200
          (.login (buildUserPayload current.user) accessToken expiresAt refreshToken
            newSession.expiresAt)
          [createRefreshCookie env clock.cookie refreshToken newSession.expiresAt]), stored)

/-- Embeds `handleLogout(req, res)`. -/
def handleLogout (env : Env) (clock : Clock) (users : List User)
    (sessions : List Session) (cookieHeader : Option String) :
    Except JsError Response × List Session :=
  let swept := clearExpiredSessions env clock.sweep sessions
  match getSessionFromRequest env clock.check users swept cookieHeader with
  | .error e => (.error e, swept)
  | .ok (current, left) =>
    let final :=
      match current with
      | some current => removeSession left current.session.id
      | none => left
    (.ok (jsonResponse 200 (.message "Sesión cerrada correctamente") [clearRefreshCookie env]),
      final)

/-! ## Liveness, in the words of the specification -/

/-- A session record is live at `now` when `revokedAt` is unset (`null` or
empty: not truthy) and `expiresAt` parses to a time strictly after `now`. -/
def Live (env : Env) (now : Int) (session : Session) : Prop :=
  truthy session.revokedAt = false ∧
    ∃ expires, env.dateParse session.expiresAt = some expires ∧ now < expires

instance instDecidableLive (env : Env) (now : Int) (session : Session) :
    Decidable (Live env now session) := by
  unfold Live
  cases h : env.dateParse session.expiresAt with
  | none => exact isFalse (fun hl => by obtain ⟨_, t, ht, _⟩ := hl; cases ht)
  | some t =>
    exact decidable_of_iff (truthy session.revokedAt = false ∧ now < t)
      ⟨fun hl => ⟨hl.1, t, rfl, hl.2⟩,
       fun hl => by
        obtain ⟨h1, t2, ht, hlt⟩ := hl
        cases ht
        exact ⟨h1, hlt⟩⟩

/-! ## A small concrete runtime

Used to evaluate the handlers on concrete requests. Dates are written as
decimal numbers of milliseconds, least significant digit first. -/

/-- Decimal digits of `n`, least significant first; `fuel` bounds their number. -/
def sampleDigits : Nat → Nat → List Char
  | 0, _ => []
  | fuel + 1, n =>
    Char.ofNat (48 + n % 10) :: (if n / 10 = 0 then [] else sampleDigits fuel (n / 10))

/-- Number written by decimal digits, least significant first. -/
def sampleNumber : List Char → Nat
  | [] => 0
  | c :: cs => (c.toNat - 48) + 10 * sampleNumber cs

/-- Sample `toISOString`: negative times are invalid dates. -/
def sampleToISOString (t : Int) : Option String :=
  if t < 0 then none else some (String.mk (sampleDigits (t.toNat + 1) t.toNat))

/-- Sample `Date.parse`: a non-empty string of digits parses, anything else is `NaN`. -/
def sampleDateParse (s : String) : Option Int :=
  if s.data ≠ [] ∧ s.data.all Char.isDigit = true then some (sampleNumber s.data : Nat) else none

/-- Sample runtime. -/
def sampleEnv : Env where
  sha256Hex := fun token => "#" ++ token
  hmacSha256 := fun secret data =>
    String.mk ((secret ++ data).data.map (fun c => if c = '.' then '_' else c))
  scryptSync := fun password salt n => List.replicate n (Fin.ofNat (password.length + salt.length))
  dateParse := sampleDateParse
  toISOString := sampleToISOString
  toLowerCase := fun s => String.mk (s.data.map Char.toLower)
  encodePayload := fun payload => payload.sub
  decodePayload := fun segment =>
    some { sub := segment, email := "", role := "", name := "",
           exp := (sampleDateParse segment), iat := none }
  ACCESS_TOKEN_SECRET := "dev-access-secret"
  ACCESS_TOKEN_TTL_MINUTES := 20
  REFRESH_TOKEN_TTL_DAYS := 14
  production := false

/-- Sample user. -/
def sampleUser : User :=
  { id := "u1", email := "prueba@usuario.com", name := "Cliente de Prueba", role := "cliente",
    passwordHash := none }

/-- Sample session of `sampleUser` for the refresh token `abc`, expiring at 5000. -/
def sampleSession : Session :=
  { id := "s1", userId := "u1", refreshTokenHash := "#abc", createdAt := "0",
    expiresAt := "0005", revokedAt := none }

/-- Sample readings of the clock: every call site reads 1000. -/
def sampleClock : Clock :=
  { sweep := 1000, check := 1000, tokenExp := 1000, tokenIat := 1000,
    sessionExpires := 1000, sessionCreated := 1000, cookie := 1000 }

/-- Sample draws: 48 zero bytes and a fixed identifier. -/
def sampleDraw : Draw :=
  { tokenBytes := List.replicate 48 0, uuid := "s2" }

/-- Sample payload with expiry at second 1000. -/
def samplePayload : Payload :=
  { sub := "0001", email := "", role := "", name := "", exp := some 1000, iat := none }

/-- Sample user with a password hash: `1234` hashed with sixteen bytes `7`. -/
def sampleMember : User :=
  { id := "u2", email := "local@comercio.com", name := "Comercio de Prueba", role := "local",
    passwordHash := some (hashPassword sampleEnv (List.replicate 16 7) "1234") }

/-- Sample login body for `sampleMember`. -/
def sampleLogin : LoginBody :=
  { email := some " Local@Comercio.com ", password := some "1234" }

/-- Characters that pass through `parseCookies` unchanged: not a separator of
the header, not an escape, not trimmed. -/
def CookieSafe (c : Char) : Prop :=
  c ≠ ';' ∧ c ≠ '=' ∧ c ≠ '%' ∧ isTrimChar c = false

instance instDecidableCookieSafe (c : Char) : Decidable (CookieSafe c) := by
  unfold CookieSafe; infer_instance

/-! ## Seeding (server/storage.js) -/

/-- Random draws of one run of `seedDefaultUsers`: a `randomUUID()` and the 16
bytes of `randomBytes(16)` for each of the two well-known accounts. -/
structure SeedDraw where
  clienteId : String
  clienteSalt : List Byte
  localId : String
  localSalt : List Byte

/-- Embeds `seedDefaultUsers()`: each well-known account is pushed when no user
has exactly its email (`user.email === '...'`). -/
def seedDefaultUsers (env : Env) (draw : SeedDraw) (users : List User) : List User :=
  let users :=
    if !users.any (fun user => user.email == "prueba@usuario.com") then
      users ++ [{ id := draw.clienteId, email := "prueba@usuario.com",
                  name := "Cliente de Prueba", role := "cliente",
                  passwordHash := some (hashPassword env draw.clienteSalt "1234") }]
    else users
  if !users.any (fun user => user.email == "local@comercio.com") then
    users ++ [{ id := draw.localId, email := "local@comercio.com",
                name := "Comercio de Prueba", role := "local",
                passwordHash := some (hashPassword env draw.localSalt "1234") }]
  else users

/-- Two emails are equal ignoring case: `findUserByEmail` compares them so. -/
def SameEmail (env : Env) (a b : String) : Prop :=
  env.toLowerCase a = env.toLowerCase b

instance instDecidableSameEmail (env : Env) (a b : String) : Decidable (SameEmail env a b) := by
  unfold SameEmail; infer_instance

/-- No two records of the list have emails that are equal ignoring case. -/
def EmailsUnique (env : Env) (users : List User) : Prop :=
  users.Pairwise (fun a b => ¬ SameEmail env a.email b.email)

/-- Sample draws of a seeding run. -/
def sampleSeed : SeedDraw :=
  { clienteId := "seed-1", clienteSalt := List.replicate 16 1,
    localId := "seed-2", localSalt := List.replicate 16 2 }

/-- Sample user whose email is a well-known email in another case. -/
def sampleCaseUser : User :=
  { id := "u0", email := "Prueba@Usuario.com", name := "Cliente", role := "cliente",
    passwordHash := none }

/-! ## Theorems -/

section Storage

theorem filter_length_eq_self {α : Type} (p : α → Bool) (l : List α)
    (h : (l.filter p).length = l.length) : l.filter p = l := by
  induction l with
  | nil => rfl
  | cons a l ih =>
    by_cases hp : p a = true
    · simp only [List.filter_cons_of_pos hp, List.length_cons, Nat.add_right_cancel_iff] at h
      rw [List.filter_cons_of_pos hp, ih h]
    · have hle := List.length_filter_le p l
      simp only [List.filter_cons_of_neg hp, List.length_cons] at h
      omega

theorem clearExpiredSessions_filter (env : Env) (now : Int) (sessions : List Session) :
    clearExpiredSessions env now sessions = sessions.filter (keptBySweep env now) := by
  unfold clearExpiredSessions
  by_cases h : (sessions.filter (keptBySweep env now)).length = sessions.length
  · simp [h, filter_length_eq_self _ _ h]
  · simp [h]

theorem keptBySweep_iff_live (env : Env) (now : Int) (session : Session) :
    keptBySweep env now session = true ↔ Live env now session := by
  unfold keptBySweep Live
  cases h : env.dateParse session.expiresAt with
  | none => simp
  | some t =>
    simp only [Bool.and_eq_true, decide_eq_true_eq, Bool.not_eq_true', gt_iff_lt,
      Option.some.injEq, exists_eq_left']
    exact And.comm

end Storage

/-- C9: after `clearExpiredSessions(now)` the session store is exactly the
sublist, in the original order, of the records that are live at `now`
(`revokedAt` unset and `expiresAt` a parseable time strictly greater than
`now`); in particular a record is in the swept store iff it was in the store and
is live, and every record kept is kept unaltered. -/
theorem clearExpiredSessions_keeps_exactly_live (env : Env) (now : Int)
    (sessions : List Session) :
    clearExpiredSessions env now sessions
        = sessions.filter (fun session => decide (Live env now session)) ∧
      (clearExpiredSessions env now sessions).Sublist sessions ∧
      ∀ session, session ∈ clearExpiredSessions env now sessions ↔
        session ∈ sessions ∧ Live env now session := by
  have hfun : (fun session => decide (Live env now session)) = keptBySweep env now := by
    funext session
    by_cases hl : Live env now session
    · simp [hl, (keptBySweep_iff_live env now session).2 hl]
    · have : keptBySweep env now session = false := by
        cases hk : keptBySweep env now session with
        | false => rfl
        | true => exact absurd ((keptBySweep_iff_live env now session).1 hk) hl
      simp [hl, this]
  rw [hfun, clearExpiredSessions_filter]
  refine ⟨rfl, List.filter_sublist _, fun session => ?_⟩
  rw [List.mem_filter, keptBySweep_iff_live]

section Resolve

theorem findSessionByHash_some {sessions : List Session} {hash : String} {session : Session}
    (h : findSessionByHash sessions hash = some session) :
    session ∈ sessions ∧ session.refreshTokenHash = hash ∧ truthy session.revokedAt = false := by
  unfold findSessionByHash at h
  have hp := List.find?_some h
  have hm := List.mem_of_find?_eq_some h
  simp only [Bool.and_eq_true, beq_iff_eq, Bool.not_eq_true'] at hp
  exact ⟨hm, hp.1, hp.2⟩

theorem findUserById_some {users : List User} {id : String} {user : User}
    (h : findUserById users id = some user) : user ∈ users ∧ user.id = id := by
  unfold findUserById at h
  have hp := List.find?_some h
  have hm := List.mem_of_find?_eq_some h
  simp only [beq_iff_eq] at hp
  exact ⟨hm, hp⟩

theorem getSessionFromRequest_some (env : Env) (now : Int) (users : List User)
    (sessions : List Session) (cookieHeader : Option String) (current : Resolved)
    (left : List Session)
    (h : getSessionFromRequest env now users sessions cookieHeader = .ok (some current, left)) :
    (∃ cookies, parseCookies cookieHeader = .ok cookies ∧
        getCookie cookies REFRESH_COOKIE = some current.token) ∧
      current.session ∈ sessions ∧
      current.session.refreshTokenHash = hashToken env current.token ∧
      truthy current.session.revokedAt = false ∧
      (∃ expires, env.dateParse current.session.expiresAt = some expires ∧ now < expires) ∧
      (¬ ∃ expires, env.dateParse current.session.expiresAt = some expires ∧ expires ≤ now) ∧
      Live env now current.session ∧
      current.user ∈ users ∧ current.user.id = current.session.userId ∧
      left = sessions := by
  unfold getSessionFromRequest at h
  cases hc : parseCookies cookieHeader with
  | error e => simp [hc] at h
  | ok cookies =>
    simp only [hc] at h
    cases hg : getCookie cookies REFRESH_COOKIE with
    | none => simp [hg] at h
    | some token =>
      simp only [hg] at h
      by_cases htok : token = ""
      · simp [htok] at h
      · simp only [htok, if_false] at h
        cases hf : findSessionByHash sessions (hashToken env token) with
        | none => simp [hf] at h
        | some session =>
          simp only [hf] at h
          cases hd : env.dateParse session.expiresAt with
          | none => simp [hd] at h
          | some expires =>
            simp only [hd] at h
            by_cases hexp : expires ≤ now
            · simp [hexp] at h
            · simp only [hexp, if_false] at h
              cases hu : findUserById users session.userId with
              | none => simp [hu] at h
              | some user =>
                simp only [hu, Except.ok.injEq, Prod.mk.injEq, Option.some.injEq] at h
                obtain ⟨hcur, hleft⟩ := h
                subst hcur
                obtain ⟨hmem, hhash, hrev⟩ := findSessionByHash_some hf
                obtain ⟨humem, huid⟩ := findUserById_some hu
                have hlt : now < expires := lt_of_not_ge hexp
                refine ⟨⟨cookies, rfl, hg⟩, hmem, hhash, hrev, ⟨expires, hd, hlt⟩, ?_,
                  ⟨hrev, expires, hd, hlt⟩, humem, huid, hleft.symm⟩
                rintro ⟨t, ht, hle⟩
                simp only [hd, Option.some.injEq] at ht
                subst ht
                exact hexp hle

end Resolve

/-- C8: when `getSessionFromRequest` returns a non-null `token, session, user`,
the token is the value of the refresh cookie, `session` is a record of the store
with `refreshTokenHash = hashToken(token)`, its `revokedAt` is unset, its
`expiresAt` parses to a finite time strictly greater than `now` (so a record
whose `expiresAt` is at or before `now` is never returned), `user` is a record
of the user store with `user.id = session.userId`, and the store is left as it
was. -/
theorem getSessionFromRequest_live_owned (env : Env) (now : Int) (users : List User)
    (sessions : List Session) (cookieHeader : Option String) (current : Resolved)
    (left : List Session)
    (h : getSessionFromRequest env now users sessions cookieHeader = .ok (some current, left)) :
    (∃ cookies, parseCookies cookieHeader = .ok cookies ∧
        getCookie cookies REFRESH_COOKIE = some current.token) ∧
      current.session ∈ sessions ∧
      current.session.refreshTokenHash = hashToken env current.token ∧
      truthy current.session.revokedAt = false ∧
      (∃ expires, env.dateParse current.session.expiresAt = some expires ∧ now < expires) ∧
      (¬ ∃ expires, env.dateParse current.session.expiresAt = some expires ∧ expires ≤ now) ∧
      Live env now current.session ∧
      current.user ∈ users ∧ current.user.id = current.session.userId ∧
      left = sessions :=
  getSessionFromRequest_some env now users sessions cookieHeader current left h

/-- C8 at a concrete request: the cookie `refreshToken=abc` resolves the sample
session at time 1000. -/
theorem getSessionFromRequest_live_owned_witness :
    getSessionFromRequest sampleEnv 1000 [sampleUser] [sampleSession] (some "refreshToken=abc")
        = .ok (some { token := "abc", session := sampleSession, user := sampleUser },
            [sampleSession]) ∧
      sampleSession.refreshTokenHash = hashToken sampleEnv "abc" ∧
      Live sampleEnv 1000 sampleSession ∧
      sampleUser.id = sampleSession.userId :=
  have h : getSessionFromRequest sampleEnv 1000 [sampleUser] [sampleSession]
      (some "refreshToken=abc")
        = .ok (some { token := "abc", session := sampleSession, user := sampleUser },
            [sampleSession]) := by rfl
  have t := getSessionFromRequest_live_owned sampleEnv 1000 [sampleUser] [sampleSession]
    (some "refreshToken=abc") { token := "abc", session := sampleSession, user := sampleUser }
    [sampleSession] h
  ⟨h, t.2.2.1, t.2.2.2.2.2.2.1, t.2.2.2.2.2.2.2.2.1⟩

section Strings

theorem splitChars_ne_nil (sep : Char) (cs : List Char) : splitChars sep cs ≠ [] := by
  cases cs with
  | nil => simp [splitChars]
  | cons c cs =>
    unfold splitChars
    split
    · simp
    · split <;> simp

theorem splitChars_length (sep : Char) (cs : List Char) :
    (splitChars sep cs).length = cs.count sep + 1 := by
  induction cs with
  | nil => simp [splitChars]
  | cons c cs ih =>
    unfold splitChars
    by_cases hc : c = sep
    · subst hc
      simp [ih]
    · have hne : (c == sep) = false := by simpa using hc
      rw [if_neg hc, List.count_cons, hne]
      cases hs : splitChars sep cs with
      | nil => exact absurd hs (splitChars_ne_nil sep cs)
      | cons p ps =>
        rw [hs] at ih
        simpa using ih

theorem splitChars_append_sep (sep : Char) (a b : List Char) (ha : sep ∉ a) :
    splitChars sep (a ++ sep :: b) = a :: splitChars sep b := by
  induction a with
  | nil => simp [splitChars]
  | cons c a ih =>
    have hc : c ≠ sep := fun h => ha (by simp [h])
    have ha2 : sep ∉ a := fun h => ha (by simp [h])
    have e := ih ha2
    rw [List.cons_append, splitChars, if_neg hc, e]

theorem splitChars_of_not_mem (sep : Char) (a : List Char) (ha : sep ∉ a) :
    splitChars sep a = [a] := by
  induction a with
  | nil => simp [splitChars]
  | cons c a ih =>
    have hc : c ≠ sep := fun h => ha (by simp [h])
    have ha2 : sep ∉ a := fun h => ha (by simp [h])
    simp only [splitChars, if_neg hc, ih ha2]

theorem splitChars_eq_singleton (sep : Char) (cs x : List Char)
    (h : splitChars sep cs = [x]) : sep ∉ cs ∧ x = cs := by
  have hl := splitChars_length sep cs
  rw [h] at hl
  have hc : cs.count sep = 0 := by simpa using hl.symm
  have hn : sep ∉ cs := List.count_eq_zero.mp hc
  refine ⟨hn, ?_⟩
  rw [splitChars_of_not_mem _ _ hn] at h
  simpa using h.symm

theorem hexVal_hexDigit (n : Nat) (h : n < 16) : hexVal (hexDigit n) = some n := by
  interval_cases n <;> rfl

theorem hexDigit_ne_colon (n : Nat) (h : n < 16) : hexDigit n ≠ ':' := by
  interval_cases n <;> decide

theorem hexDecodeChars_hexEncodeChars (bs : List Byte) :
    hexDecodeChars (hexEncodeChars bs) = bs := by
  induction bs with
  | nil => rfl
  | cons b bs ih =>
    have h1 : b.val / 16 < 16 := by omega
    have h2 : b.val % 16 < 16 := by omega
    simp only [hexEncodeChars, hexDecodeChars, hexVal_hexDigit _ h1, hexVal_hexDigit _ h2, ih]
    congr 1
    apply Fin.ext
    simp [Fin.ofNat]
    omega

theorem colon_not_mem_hexEncodeChars (bs : List Byte) : ':' ∉ hexEncodeChars bs := by
  induction bs with
  | nil => simp [hexEncodeChars]
  | cons b bs ih =>
    have h1 : b.val / 16 < 16 := by omega
    have h2 : b.val % 16 < 16 := by omega
    simp only [hexEncodeChars, List.mem_cons, not_or]
    exact ⟨(hexDigit_ne_colon _ h1).symm, (hexDigit_ne_colon _ h2).symm, ih⟩

theorem hexEncodeChars_length (bs : List Byte) : (hexEncodeChars bs).length = 2 * bs.length := by
  induction bs with
  | nil => rfl
  | cons b bs ih => simp only [hexEncodeChars, List.length_cons, ih]; omega

theorem hexDecode_hexEncode (bs : List Byte) : hexDecode (hexEncode bs) = bs := by
  simp [hexDecode, hexEncode, hexDecodeChars_hexEncodeChars]

theorem hexEncode_ne_empty (bs : List Byte) (h : bs ≠ []) : hexEncode bs ≠ "" := by
  intro he
  have hl : (hexEncode bs).data.length = 0 := by rw [he]; rfl
  simp only [hexEncode, hexEncodeChars_length] at hl
  have : bs.length = 0 := by omega
  exact h (List.length_eq_zero.mp this)

end Strings

section Security

theorem jsSplit_hashPassword (env : Env) (rnd : List Byte) (password : String) :
    jsSplit ':' (hashPassword env rnd password)
      = [hexEncode rnd, hexEncode (env.scryptSync password (hexEncode rnd) KEY_LENGTH)] := by
  simp only [jsSplit, hashPassword, String.data_append]
  rw [List.append_assoc, List.singleton_append]
  simp only [hexEncode]
  rw [splitChars_append_sep _ _ _ (colon_not_mem_hexEncodeChars rnd),
    splitChars_of_not_mem _ _ (colon_not_mem_hexEncodeChars _)]
  rfl

theorem sampleEnv_scrypt_length (password salt : String) :
    (sampleEnv.scryptSync password salt KEY_LENGTH).length = KEY_LENGTH := by
  simp [sampleEnv]

end Security

/-- C6: for every plaintext `p` and every 16-byte salt drawn by `hashPassword`
(with `scryptSync` returning `KEY_LENGTH` bytes), the `salt:derived` string
splits back into the same hex salt and the same hex key, the key decodes to the
64-byte derived key, and `verifyPassword(p, hashPassword(p))` is true. -/
theorem verifyPassword_hashPassword (env : Env) (rnd : List Byte) (password : String)
    (hrnd : rnd.length = 16)
    (hkey : ∀ p s, (env.scryptSync p s KEY_LENGTH).length = KEY_LENGTH) :
    jsSplit ':' (hashPassword env rnd password)
        = [hexEncode rnd, hexEncode (env.scryptSync password (hexEncode rnd) KEY_LENGTH)] ∧
      hexDecode (hexEncode (env.scryptSync password (hexEncode rnd) KEY_LENGTH))
        = env.scryptSync password (hexEncode rnd) KEY_LENGTH ∧
      (hexDecode (hexEncode (env.scryptSync password (hexEncode rnd) KEY_LENGTH))).length = 64 ∧
      verifyPassword env password (some (hashPassword env rnd password)) = true := by
  have hsplit := jsSplit_hashPassword env rnd password
  have hrnd_ne : rnd ≠ [] := by
    intro h; rw [h] at hrnd; simp at hrnd
  have hk := hkey password (hexEncode rnd)
  have hkey_ne : env.scryptSync password (hexEncode rnd) KEY_LENGTH ≠ [] := by
    intro h; rw [h] at hk; simp [KEY_LENGTH] at hk
  have hne : hashPassword env rnd password ≠ "" := by
    intro h
    have := congrArg String.data h
    simp [hashPassword, String.data_append] at this
  refine ⟨hsplit, hexDecode_hexEncode _, ?_, ?_⟩
  · rw [hexDecode_hexEncode, hk]; rfl
  · unfold verifyPassword
    simp only [hne, if_false, hsplit, hexEncode_ne_empty _ hrnd_ne, hexEncode_ne_empty _ hkey_ne,
      hexDecode_hexEncode]
    simp

/-- C6 at a concrete input: the password `1234` hashed with sixteen bytes `7`
verifies under the sample runtime. -/
theorem verifyPassword_hashPassword_witness :
    (List.replicate 16 (7 : Byte)).length = 16 ∧
      verifyPassword sampleEnv "1234"
        (some (hashPassword sampleEnv (List.replicate 16 7) "1234")) = true :=
  ⟨by decide,
    (verifyPassword_hashPassword sampleEnv (List.replicate 16 7) "1234" (by decide)
      sampleEnv_scrypt_length).2.2.2⟩

/-- C7: `verifyPassword` returns false (it is a total function: nothing is
raised) for every plaintext and every stored hash that is missing (`null`,
`undefined` or empty), or has no `:` separator, or has an empty salt or an empty
key part, or whose key part decodes to a byte length different from the
64-byte derived key. -/
theorem verifyPassword_bad_hash (env : Env) (password : String) (hash : Option String)
    (hkey : ∀ p s, (env.scryptSync p s KEY_LENGTH).length = KEY_LENGTH)
    (hbad : hash = none ∨ hash = some "" ∨
      (∃ s, hash = some s ∧ ':' ∉ s.data) ∨
      (∃ s salt key rest, hash = some s ∧ jsSplit ':' s = salt :: key :: rest ∧
        (salt = "" ∨ key = "" ∨ (hexDecode key).length ≠ KEY_LENGTH))) :
    verifyPassword env password hash = false := by
  rcases hbad with h | h | ⟨s, h, hs⟩ | ⟨s, salt, key, rest, h, hsplit, hparts⟩
  · subst h; rfl
  · subst h; rfl
  · subst h
    unfold verifyPassword
    by_cases he : s = ""
    · simp [he]
    · simp only [he, if_false, jsSplit, splitChars_of_not_mem _ _ hs, List.map]
  · subst h
    unfold verifyPassword
    by_cases he : s = ""
    · simp [he]
    · simp only [he, if_false, hsplit]
      rcases hparts with h1 | h1 | h1
      · simp [h1]
      · simp [h1]
      · by_cases h2 : (salt = "" || key = "") = true
        · simp only [h2, if_true]
        · simp only [h2]
          rw [hexDecode_hexEncode, hkey]
          simp [h1]

/-- C7 at a concrete input: a stored hash whose key part decodes to two bytes is
rejected. -/
theorem verifyPassword_bad_hash_witness :
    jsSplit ':' "abcd:00ff" = ["abcd", "00ff"] ∧ (hexDecode "00ff").length ≠ KEY_LENGTH ∧
      verifyPassword sampleEnv "1234" (some "abcd:00ff") = false :=
  ⟨by decide, by decide,
    verifyPassword_bad_hash sampleEnv "1234" (some "abcd:00ff") sampleEnv_scrypt_length
      (Or.inr (Or.inr (Or.inr ⟨"abcd:00ff", "abcd", "00ff", [], rfl, by decide,
        Or.inr (Or.inr (by decide))⟩)))⟩

section Tokens

theorem tokenChars (h p sig : String) :
    (h ++ "." ++ p ++ "." ++ sig).data = h.data ++ '.' :: (p.data ++ '.' :: sig.data) := by
  simp [String.data_append]

theorem jsSplit_three (token a b c : String) (h : jsSplit '.' token = [a, b, c]) :
    token.data.count '.' = 2 := by
  have hl := splitChars_length '.' token.data
  have : (jsSplit '.' token).length = 3 := by rw [h]; rfl
  simp only [jsSplit, List.length_map] at this
  omega

theorem verifyToken_some_split (env : Env) (now : Int) (token secret : String)
    (payload : Payload) (h : verifyToken env now token secret = some payload) :
    ∃ a b c, jsSplit '.' token = [a, b, c] ∧ sign env (a ++ "." ++ b) secret = c := by
  unfold verifyToken at h
  by_cases ht : token = ""
  · simp [ht] at h
  · simp only [ht, if_false] at h
    split at h
    · rename_i a b c heq
      refine ⟨a, b, c, heq, ?_⟩
      by_cases hs : sign env (a ++ "." ++ b) secret = c
      · exact hs
      · simp [hs] at h
    · cases h

end Tokens

/-- What the expiry test of `verifyToken` does reject: for every secret and every
three-part token whose signature segment equals `sign(header.payload, secret)`
and whose payload parses with a non-zero expiry `exp` strictly before the
evaluation time (`exp < Date.now() / 1000`), `verifyToken` returns `null`. -/
theorem verifyToken_rejects_expired (env : Env) (now : Int) (token secret h p sig : String)
    (payload : Payload) (exp : Int)
    (hsplit : jsSplit '.' token = [h, p, sig])
    (hsig : sig = sign env (h ++ "." ++ p) secret)
    (hpay : env.decodePayload p = some payload)
    (hexp : payload.exp = some exp)
    (hnz : exp ≠ 0) (hlt : exp * 1000 < now) :
    verifyToken env now token secret = none := by
  unfold verifyToken
  by_cases ht : token = ""
  · simp [ht]
  · have he : expiredAt now payload = true := by
      simp [expiredAt, hexp, hnz, hlt]
    simp [ht, hsplit, ← hsig, hpay, he]

/-- The token with expiry 1000 s is rejected one millisecond after its expiry
instant. -/
theorem verifyToken_rejects_expired_witness :
    jsSplit '.' "h.0001.kh_0001" = ["h", "0001", "kh_0001"] ∧
      "kh_0001" = sign sampleEnv ("h" ++ "." ++ "0001") "k" ∧
      sampleEnv.decodePayload "0001" = some samplePayload ∧
      verifyToken sampleEnv 1000001 "h.0001.kh_0001" "k" = none :=
  ⟨by decide, by decide, by rfl,
    verifyToken_rejects_expired sampleEnv 1000001 "h.0001.kh_0001" "k" "h" "0001" "kh_0001"
      samplePayload 1000 (by decide) (by decide) (by rfl) rfl (by decide) (by decide)⟩

/-- C4 fails on the code: `verifyToken` tests
`payload.exp && Date.now() / 1000 > payload.exp`, so a correctly signed token
whose payload has `exp = 1000` is accepted at `Date.now() = 1000000`, its expiry
instant (`exp <= now / 1000`), where the expiry checks of the refresh sessions
(`expires <= Date.now()`, `expires > now`) reject; and a correctly signed token
with `exp = 0` passes the falsy guard and is accepted at any time. -/
theorem verifyToken_accepts_at_expiry_instant :
    (jsSplit '.' "h.0001.kh_0001" = ["h", "0001", "kh_0001"] ∧
      "kh_0001" = sign sampleEnv ("h" ++ "." ++ "0001") "k" ∧
      sampleEnv.decodePayload "0001" = some samplePayload ∧
      samplePayload.exp = some 1000 ∧
      (1000 : Int) * 1000 ≤ 1000000 ∧
      verifyToken sampleEnv 1000000 "h.0001.kh_0001" "k" = some samplePayload) ∧
    (jsSplit '.' "h.0.kh_0" = ["h", "0", "kh_0"] ∧
      "kh_0" = sign sampleEnv ("h" ++ "." ++ "0") "k" ∧
      sampleEnv.decodePayload "0"
        = some { sub := "0", email := "", role := "", name := "", exp := some 0, iat := none } ∧
      (0 : Int) * 1000 ≤ 5000 ∧
      verifyToken sampleEnv 5000 "h.0.kh_0" "k"
        = some { sub := "0", email := "", role := "", name := "", exp := some 0, iat := none }) := by
  refine ⟨⟨by decide, by decide, by rfl, rfl, by decide, by rfl⟩,
    ⟨by decide, by decide, by rfl, by decide, by rfl⟩⟩

/-- C5: for every secret `k`, every token `header.payload.sig` that
`verifyToken` accepts under `k` and every string `sig'` different from `sig`
(the empty string and strings containing `.` included), `verifyToken` returns
`null` on `header.payload.sig'`, at any time; `verifyToken` is a total function,
so nothing is raised. -/
theorem verifyToken_rejects_altered_signature (env : Env) (now now' : Int)
    (secret h p sig sig' : String) (payload : Payload)
    (hacc : verifyToken env now (h ++ "." ++ p ++ "." ++ sig) secret = some payload)
    (hne : sig' ≠ sig) :
    verifyToken env now' (h ++ "." ++ p ++ "." ++ sig') secret = none := by
  obtain ⟨a, b, c, hsplit, hsign⟩ := verifyToken_some_split env now _ secret payload hacc
  have hcount := jsSplit_three _ a b c hsplit
  rw [tokenChars] at hcount
  simp only [List.count_append, List.count_cons_self] at hcount
  have hh : '.' ∉ h.data := List.count_eq_zero.mp (by omega)
  have hp : '.' ∉ p.data := List.count_eq_zero.mp (by omega)
  have hs : '.' ∉ sig.data := List.count_eq_zero.mp (by omega)
  have hparts : jsSplit '.' (h ++ "." ++ p ++ "." ++ sig) = [h, p, sig] := by
    simp only [jsSplit, tokenChars]
    rw [splitChars_append_sep _ _ _ hh, splitChars_append_sep _ _ _ hp,
      splitChars_of_not_mem _ _ hs]
    rfl
  rw [hparts] at hsplit
  simp only [List.cons.injEq, and_true] at hsplit
  obtain ⟨rfl, rfl, rfl⟩ := hsplit
  have hparts' : jsSplit '.' (h ++ "." ++ p ++ "." ++ sig')
      = h :: p :: (splitChars '.' sig'.data).map String.mk := by
    simp only [jsSplit, tokenChars]
    rw [splitChars_append_sep _ _ _ hh, splitChars_append_sep _ _ _ hp]
    rfl
  unfold verifyToken
  rw [hparts']
  split
  · rfl
  · cases hsp : splitChars '.' sig'.data with
    | nil => exact absurd hsp (splitChars_ne_nil _ _)
    | cons x rest =>
      cases rest with
      | nil =>
        obtain ⟨_, hx⟩ := splitChars_eq_singleton _ _ _ hsp
        subst hx
        have hne' : (sign env (h ++ "." ++ p) secret != sig') = true := by
          rw [hsign]; simpa using hne.symm
        simp only [List.map, hne', if_true]
      | cons y rest => simp only [List.map]

/-- C5 at a concrete input: the accepted token `h.0001.kh_0001` is rejected once
its signature is replaced by the empty string. -/
theorem verifyToken_rejects_altered_signature_witness :
    verifyToken sampleEnv 0 ("h" ++ "." ++ "0001" ++ "." ++ "kh_0001") "k" = some samplePayload ∧
      "" ≠ "kh_0001" ∧
      verifyToken sampleEnv 5 ("h" ++ "." ++ "0001" ++ "." ++ "") "k" = none :=
  ⟨by rfl, by decide,
    verifyToken_rejects_altered_signature sampleEnv 0 5 "k" "h" "0001" "kh_0001" ""
      samplePayload (by rfl) (by decide)⟩

/-- C3: for every user store and every non-empty email and password, a login
whose email matches no user and a login whose email matches a user whose
password verification fails produce the identical response (status 401, the
same message body, no cookie set), and each leaves its session store
unchanged. -/
theorem handleLogin_failures_indistinguishable (env : Env) (clock1 clock2 : Clock)
    (draw1 draw2 : Draw) (users : List User) (sessions1 sessions2 : List Session)
    (body1 body2 : LoginBody)
    (hemail1 : jsTrim (body1.email.getD "") ≠ "") (hpass1 : body1.password.getD "" ≠ "")
    (hemail2 : jsTrim (body2.email.getD "") ≠ "") (hpass2 : body2.password.getD "" ≠ "")
    (hunknown : findUserByEmail env users (jsTrim (body1.email.getD "")) = none)
    (hwrong : ∃ user, findUserByEmail env users (jsTrim (body2.email.getD "")) = some user ∧
      verifyPassword env (body2.password.getD "") user.passwordHash = false) :
    handleLogin env clock1 draw1 users sessions1 body1
        = (.ok { statusCode := 401, payload := .message "Credenciales incorrectas", cookies := [] },
            sessions1) ∧
      handleLogin env clock2 draw2 users sessions2 body2
        = (.ok { statusCode := 401, payload := .message "Credenciales incorrectas", cookies := [] },
            sessions2) ∧
      (handleLogin env clock1 draw1 users sessions1 body1).1
        = (handleLogin env clock2 draw2 users sessions2 body2).1 := by
  obtain ⟨user, hfind, hver⟩ := hwrong
  have h1 : handleLogin env clock1 draw1 users sessions1 body1
      = (.ok { statusCode := 401, payload := .message "Credenciales incorrectas", cookies := [] },
          sessions1) := by
    simp [handleLogin, hemail1, hpass1, hunknown, unauthorized, errorResponse, jsonResponse]
  have h2 : handleLogin env clock2 draw2 users sessions2 body2
      = (.ok { statusCode := 401, payload := .message "Credenciales incorrectas", cookies := [] },
          sessions2) := by
    simp [handleLogin, hemail2, hpass2, hfind, hver, unauthorized, errorResponse, jsonResponse]
  exact ⟨h1, h2, by rw [h1, h2]⟩

/-- C3 at a concrete input: an unknown email and a known email with a wrong
password get the same 401 response. -/
theorem handleLogin_failures_indistinguishable_witness :
    findUserByEmail sampleEnv [sampleUser] "nadie@usuario.com" = none ∧
      findUserByEmail sampleEnv [sampleUser] "PRUEBA@usuario.com" = some sampleUser ∧
      (handleLogin sampleEnv sampleClock sampleDraw [sampleUser] [sampleSession]
          { email := some "nadie@usuario.com", password := some "1234" }).1
        = (handleLogin sampleEnv sampleClock sampleDraw [sampleUser] []
          { email := some " PRUEBA@usuario.com ", password := some "x" }).1 :=
  ⟨by decide, by decide,
    (handleLogin_failures_indistinguishable sampleEnv sampleClock sampleClock sampleDraw
      sampleDraw [sampleUser] [sampleSession] []
      { email := some "nadie@usuario.com", password := some "1234" }
      { email := some " PRUEBA@usuario.com ", password := some "x" }
      (by decide) (by decide) (by decide) (by decide) (by decide)
      ⟨sampleUser, by decide, by rfl⟩).2.2⟩

section Rotation

theorem findSessionByHash_none {sessions : List Session} {hash : String}
    (h : ∀ x ∈ sessions, x.refreshTokenHash ≠ hash) : findSessionByHash sessions hash = none := by
  unfold findSessionByHash
  rw [List.find?_eq_none]
  intro x hx
  simp [h x hx]

theorem getSessionFromRequest_none_of_no_hash (env : Env) (now : Int) (users : List User)
    (sessions : List Session) (cookieHeader : Option String) (cookies : Cookies) (token : String)
    (hc : parseCookies cookieHeader = .ok cookies)
    (hg : getCookie cookies REFRESH_COOKIE = some token)
    (h : ∀ x ∈ sessions, x.refreshTokenHash ≠ hashToken env token) :
    getSessionFromRequest env now users sessions cookieHeader = .ok (none, sessions) := by
  unfold getSessionFromRequest
  simp only [hc, hg, findSessionByHash_none h]
  split <;> rfl

theorem getSessionFromRequest_none_of_parsed (env : Env) (now : Int) (users : List User)
    (sessions : List Session) (cookieHeader : Option String) (cookies : Cookies)
    (hc : parseCookies cookieHeader = .ok cookies)
    (h : ∀ token, getCookie cookies REFRESH_COOKIE = some token → token ≠ "" →
      ∀ x ∈ sessions, x.refreshTokenHash ≠ hashToken env token) :
    getSessionFromRequest env now users sessions cookieHeader = .ok (none, sessions) := by
  cases hg : getCookie cookies REFRESH_COOKIE with
  | none =>
    unfold getSessionFromRequest
    simp only [hc, hg]
  | some token =>
    by_cases htok : token = ""
    · unfold getSessionFromRequest
      simp only [hc, hg, htok, if_true]
    · exact getSessionFromRequest_none_of_no_hash env now users sessions cookieHeader cookies
        token hc hg (h token hg htok)

theorem eq_of_filter_length_le_one {α : Type} (p : α → Bool) (l : List α)
    (h : (l.filter p).length ≤ 1) (a b : α) (ha : a ∈ l) (hb : b ∈ l)
    (hpa : p a = true) (hpb : p b = true) : a = b := by
  have ha' : a ∈ l.filter p := List.mem_filter.mpr ⟨ha, hpa⟩
  have hb' : b ∈ l.filter p := List.mem_filter.mpr ⟨hb, hpb⟩
  cases hf : l.filter p with
  | nil => rw [hf] at ha'; cases ha'
  | cons x xs =>
    rw [hf] at h ha' hb'
    cases xs with
    | nil =>
      simp only [List.mem_singleton] at ha' hb'
      rw [ha', hb']
    | cons y ys => simp at h

theorem filter_length_le_of_sublist {α : Type} (p : α → Bool) {l₁ l₂ : List α}
    (hs : l₁.Sublist l₂) : (l₁.filter p).length ≤ (l₂.filter p).length :=
  (hs.filter p).length_le

theorem clearExpiredSessions_sublist (env : Env) (now : Int) (sessions : List Session) :
    (clearExpiredSessions env now sessions).Sublist sessions := by
  rw [clearExpiredSessions_filter]
  exact List.filter_sublist _

theorem mem_clearExpiredSessions {env : Env} {now : Int} {sessions : List Session} {x : Session}
    (h : x ∈ clearExpiredSessions env now sessions) : x ∈ sessions :=
  (clearExpiredSessions_sublist env now sessions).subset h

/-- Removing the resolved record leaves no record with its hash, when at most
one record carried that hash. -/
theorem no_hash_after_remove (sessions : List Session) (hash : String) (session : Session)
    (hone : (sessions.filter (fun x => x.refreshTokenHash == hash)).length ≤ 1)
    (hmem : session ∈ sessions) (hhash : session.refreshTokenHash = hash) :
    ∀ x ∈ removeSession sessions session.id, x.refreshTokenHash ≠ hash := by
  intro x hx hxh
  unfold removeSession at hx
  rw [List.mem_filter] at hx
  obtain ⟨hxm, hid⟩ := hx
  have : x = session :=
    eq_of_filter_length_le_one _ sessions hone x session hxm hmem (by simpa using hxh)
      (by simpa using hhash)
  subst this
  simp at hid

/-- A refresh answered with status 200 resolved a session, removed it by id and
appended a record for the freshly minted secret. -/
theorem handleRefresh_ok_200 (env : Env) (clock : Clock) (draw : Draw) (users : List User)
    (sessions : List Session) (cookieHeader : Option String)
    (h200 : (respond (handleRefresh env clock draw users sessions cookieHeader).1).statusCode
      = 200) :
    ∃ current newSession,
      getSessionFromRequest env clock.check users
          (clearExpiredSessions env clock.sweep sessions) cookieHeader
        = .ok (some current, clearExpiredSessions env clock.sweep sessions) ∧
      newSession.refreshTokenHash = hashToken env (generateRandomToken draw.tokenBytes) ∧
      (handleRefresh env clock draw users sessions cookieHeader).2
        = removeSession (clearExpiredSessions env clock.sweep sessions) current.session.id
          ++ [newSession] := by
  unfold handleRefresh at h200 ⊢
  simp only at h200 ⊢
  cases hget : getSessionFromRequest env clock.check users
      (clearExpiredSessions env clock.sweep sessions) cookieHeader with
  | error e => simp [hget, respond, errorResponse, jsonResponse] at h200
  | ok res =>
    obtain ⟨cur, left⟩ := res
    cases cur with
    | none => simp [hget, respond, unauthorized, errorResponse, jsonResponse] at h200
    | some current =>
      have hleft := (getSessionFromRequest_some _ _ _ _ _ _ _ hget).2.2.2.2.2.2.2.2.2
      subst hleft
      simp only [hget] at h200 ⊢
      unfold createRefreshSession at h200 ⊢
      cases h1 : env.toISOString (clock.sessionExpires + REFRESH_TOKEN_TTL_MS env) with
      | none => simp [h1, respond, errorResponse, jsonResponse] at h200
      | some expiresAt =>
        cases h2 : env.toISOString clock.sessionCreated with
        | none => simp [h1, h2, respond, errorResponse, jsonResponse] at h200
        | some createdAt =>
          simp only [h1, h2] at h200 ⊢
          cases h3 : createAccessToken env clock.tokenExp clock.tokenIat current.user
              env.ACCESS_TOKEN_SECRET (ACCESS_TOKEN_TTL_SECONDS env) with
          | error e => simp [h3, respond, errorResponse, jsonResponse] at h200
          | ok tok => exact ⟨current, _, rfl, rfl, rfl⟩

end Rotation

/-- C1: rotation is single-use. For every user store, every clock and every
session store in which at most one record carries `hashToken(s)`, where `s` is
the refresh secret of the request: if `handleRefresh` answers 200 (it removed
the resolved record by id and appended a record for a freshly minted secret
`s'` with `hashToken(s') != hashToken(s)`), then no record of the resulting
store carries `hashToken(s)`, and a second `handleRefresh` with the same request
on the resulting store, at any clock and with any draw, gets
`getSessionFromRequest = null` and answers 401. -/
theorem handleRefresh_single_use (env : Env) (clock clock' : Clock) (draw draw' : Draw)
    (users : List User) (sessions : List Session) (cookieHeader : Option String)
    (cookies : Cookies) (secret : String)
    (hcookies : parseCookies cookieHeader = .ok cookies)
    (hsecret : getCookie cookies REFRESH_COOKIE = some secret)
    (hone : (sessions.filter
      (fun x => x.refreshTokenHash == hashToken env secret)).length ≤ 1)
    (hfresh : hashToken env (generateRandomToken draw.tokenBytes) ≠ hashToken env secret)
    (h200 : (respond (handleRefresh env clock draw users sessions cookieHeader).1).statusCode
      = 200) :
    (∀ x ∈ (handleRefresh env clock draw users sessions cookieHeader).2,
        x.refreshTokenHash ≠ hashToken env secret) ∧
      getSessionFromRequest env clock'.check users
          (clearExpiredSessions env clock'.sweep
            (handleRefresh env clock draw users sessions cookieHeader).2) cookieHeader
        = .ok (none, clearExpiredSessions env clock'.sweep
            (handleRefresh env clock draw users sessions cookieHeader).2) ∧
      handleRefresh env clock' draw' users
          (handleRefresh env clock draw users sessions cookieHeader).2 cookieHeader
        = (.ok { statusCode := 401, payload := .message "El refresh token no es válido",
                 cookies := [] },
            clearExpiredSessions env clock'.sweep
              (handleRefresh env clock draw users sessions cookieHeader).2) := by
  obtain ⟨current, newSession, hget, hnew, hstored⟩ :=
    handleRefresh_ok_200 env clock draw users sessions cookieHeader h200
  obtain ⟨⟨cookies2, hc2, hg2⟩, hmem, hhash, -⟩ := getSessionFromRequest_some _ _ _ _ _ _ _ hget
  rw [hcookies] at hc2
  cases hc2
  rw [hsecret] at hg2
  cases hg2
  generalize (handleRefresh env clock draw users sessions cookieHeader).2 = stored at hstored ⊢
  have hone' : ((clearExpiredSessions env clock.sweep sessions).filter
      (fun x => x.refreshTokenHash == hashToken env current.token)).length ≤ 1 :=
    le_trans (filter_length_le_of_sublist _ (clearExpiredSessions_sublist env clock.sweep sessions))
      hone
  have hnone : ∀ x ∈ stored, x.refreshTokenHash ≠ hashToken env current.token := by
    intro x hx
    rw [hstored, List.mem_append] at hx
    rcases hx with hx | hx
    · exact no_hash_after_remove _ _ _ hone' hmem hhash x hx
    · simp only [List.mem_singleton] at hx
      subst hx
      rw [hnew]
      exact hfresh
  have hnone' : ∀ x ∈ clearExpiredSessions env clock'.sweep stored,
      x.refreshTokenHash ≠ hashToken env current.token :=
    fun x hx => hnone x (mem_clearExpiredSessions hx)
  have hget' := getSessionFromRequest_none_of_no_hash env clock'.check users
    (clearExpiredSessions env clock'.sweep stored) cookieHeader cookies current.token
    hcookies hsecret hnone'
  refine ⟨hnone, hget', ?_⟩
  unfold handleRefresh
  simp only [hget']
  rfl

/-- C1 at a concrete request: the sample session is rotated by the cookie
`refreshToken=abc`, and presenting `abc` again is answered 401. -/
theorem handleRefresh_single_use_witness :
    (respond (handleRefresh sampleEnv sampleClock sampleDraw [sampleUser] [sampleSession]
        (some "refreshToken=abc")).1).statusCode = 200 ∧
      (respond (handleRefresh sampleEnv sampleClock sampleDraw [sampleUser]
        (handleRefresh sampleEnv sampleClock sampleDraw [sampleUser] [sampleSession]
          (some "refreshToken=abc")).2 (some "refreshToken=abc")).1).statusCode = 401 :=
  have h200 : (respond (handleRefresh sampleEnv sampleClock sampleDraw [sampleUser]
      [sampleSession] (some "refreshToken=abc")).1).statusCode = 200 := by rfl
  have t := handleRefresh_single_use sampleEnv sampleClock sampleClock sampleDraw sampleDraw
    [sampleUser] [sampleSession] (some "refreshToken=abc") [("refreshToken", "abc")] "abc"
    (by rfl) (by rfl) (by decide) (by decide) h200
  ⟨h200, by rw [t.2.2]; rfl⟩

section Logout

/-- The response and the store of `handleLogout`, when the cookie header parses. -/
theorem handleLogout_of_parsed (env : Env) (clock : Clock) (users : List User)
    (sessions : List Session) (cookieHeader : Option String) (cookies : Cookies)
    (hcookies : parseCookies cookieHeader = .ok cookies) :
    handleLogout env clock users sessions cookieHeader
      = (.ok { statusCode := 200, payload := .message "Sesión cerrada correctamente",
               cookies := [clearRefreshCookie env] },
          match getCookie cookies REFRESH_COOKIE with
          | none => clearExpiredSessions env clock.sweep sessions
          | some token =>
            if token = "" then clearExpiredSessions env clock.sweep sessions
            else
              match findSessionByHash (clearExpiredSessions env clock.sweep sessions)
                  (hashToken env token) with
              | none => clearExpiredSessions env clock.sweep sessions
              | some session =>
                removeSession (clearExpiredSessions env clock.sweep sessions) session.id) := by
  unfold handleLogout getSessionFromRequest
  simp only [hcookies, jsonResponse]
  cases hg : getCookie cookies REFRESH_COOKIE with
  | none => rfl
  | some token =>
    simp only
    by_cases htok : token = ""
    · simp only [htok, if_true]
    · simp only [htok, if_false]
      cases hf : findSessionByHash (clearExpiredSessions env clock.sweep sessions)
          (hashToken env token) with
      | none => rfl
      | some session =>
        simp only
        cases hd : env.dateParse session.expiresAt with
        | none =>
          simp only [removeSession, List.filter_filter, Bool.and_self]
        | some expires =>
          simp only
          by_cases hexp : expires ≤ clock.check
          · simp only [hexp, if_true, removeSession, List.filter_filter, Bool.and_self]
          · simp only [hexp, if_false]
            cases hu : findUserById users session.userId with
            | none => simp only [removeSession, List.filter_filter, Bool.and_self]
            | some user => rfl

/-- Logout succeeds and revokes whenever the cookie header parses: for every
user store, clock and session store in which at most one record carries the
hash of the presented secret, `handleLogout` answers 200 with a cleared refresh
cookie, a second logout right after also answers 200, and in the store left by
logout the presented secret no longer resolves. -/
theorem handleLogout_revokes_of_parsed (env : Env) (clock clock' : Clock) (now : Int)
    (users : List User) (sessions : List Session) (cookieHeader : Option String)
    (cookies : Cookies)
    (hcookies : parseCookies cookieHeader = .ok cookies)
    (hone : ∀ secret, getCookie cookies REFRESH_COOKIE = some secret →
      (sessions.filter (fun x => x.refreshTokenHash == hashToken env secret)).length ≤ 1) :
    (handleLogout env clock users sessions cookieHeader).1
        = .ok { statusCode := 200, payload := .message "Sesión cerrada correctamente",
                cookies := [clearRefreshCookie env] } ∧
      (handleLogout env clock' users
          (handleLogout env clock users sessions cookieHeader).2 cookieHeader).1
        = .ok { statusCode := 200, payload := .message "Sesión cerrada correctamente",
                cookies := [clearRefreshCookie env] } ∧
      getSessionFromRequest env now users
          (handleLogout env clock users sessions cookieHeader).2 cookieHeader
        = .ok (none, (handleLogout env clock users sessions cookieHeader).2) := by
  refine ⟨by rw [handleLogout_of_parsed _ _ _ _ _ _ hcookies],
    by rw [handleLogout_of_parsed _ _ _ _ _ _ hcookies], ?_⟩
  apply getSessionFromRequest_none_of_parsed _ _ _ _ _ _ hcookies
  intro token hg htok x hx
  rw [handleLogout_of_parsed _ _ _ _ _ _ hcookies] at hx
  simp only [hg, htok, if_false] at hx
  have hone' : ((clearExpiredSessions env clock.sweep sessions).filter
      (fun x => x.refreshTokenHash == hashToken env token)).length ≤ 1 :=
    le_trans (filter_length_le_of_sublist _ (clearExpiredSessions_sublist env clock.sweep sessions))
      (hone token hg)
  cases hf : findSessionByHash (clearExpiredSessions env clock.sweep sessions)
      (hashToken env token) with
  | none =>
    rw [hf] at hx
    intro hxh
    have hp : (x.refreshTokenHash == hashToken env token
        && !truthy x.revokedAt) = true := by
      have hk := List.mem_filter.mp (by rw [clearExpiredSessions_filter] at hx; exact hx)
      have hl := (keptBySweep_iff_live env clock.sweep x).1 hk.2
      simp [hxh, hl.1]
    unfold findSessionByHash at hf
    rw [List.find?_eq_none] at hf
    exact hf x hx hp
  | some session =>
    rw [hf] at hx
    obtain ⟨hmem, hhash, -⟩ := findSessionByHash_some hf
    exact no_hash_after_remove _ _ _ hone' hmem hhash x hx

end Logout

/-- C10 fails on a cookie value that is not a valid percent encoding: for every
user store, clock and session store, `handleLogout` on the request whose cookie
header is `refreshToken=%` raises `URIError` in `parseCookies` (after the
sweep), and the request listener answers 500 instead of 200. -/
theorem handleLogout_malformed_cookie (env : Env) (clock : Clock) (users : List User)
    (sessions : List Session) :
    handleLogout env clock users sessions (some "refreshToken=%")
        = (.error .uriError, clearExpiredSessions env clock.sweep sessions) ∧
      respond (handleLogout env clock users sessions (some "refreshToken=%")).1
        = { statusCode := 500, payload := .message "Error interno del servidor", cookies := [] } := by
  have hp : parseCookies (some "refreshToken=%") = .error .uriError := by rfl
  have h : handleLogout env clock users sessions (some "refreshToken=%")
      = (.error .uriError, clearExpiredSessions env clock.sweep sessions) := by
    unfold handleLogout getSessionFromRequest
    simp only [hp]
  exact ⟨h, by rw [h]; rfl⟩

section Cookies

theorem base64UrlChar_safe (n : Nat) : CookieSafe (base64UrlChar n) := by
  by_cases h : n < 64
  · interval_cases n <;> decide
  · have e : base64UrlChar n = '_' := by
      unfold base64UrlChar
      rw [if_neg (by omega), if_neg (by omega), if_neg (by omega), if_neg (by omega)]
    rw [e]; decide

theorem base64UrlChars_safe (bs : List Byte) : ∀ c ∈ base64UrlChars bs, CookieSafe c := by
  induction bs using base64UrlChars.induct with
  | case1 a b c rest ih =>
    intro x hx
    simp only [base64UrlChars, List.mem_cons] at hx
    rcases hx with h | h | h | h | h
    · rw [h]; exact base64UrlChar_safe _
    · rw [h]; exact base64UrlChar_safe _
    · rw [h]; exact base64UrlChar_safe _
    · rw [h]; exact base64UrlChar_safe _
    · exact ih x h
  | case2 a b =>
    intro x hx
    simp only [base64UrlChars, List.mem_cons, List.mem_singleton] at hx
    rcases hx with h | h | h | h
    · rw [h]; exact base64UrlChar_safe _
    · rw [h]; exact base64UrlChar_safe _
    · rw [h]; exact base64UrlChar_safe _
    · cases h
  | case3 a =>
    intro x hx
    simp only [base64UrlChars, List.mem_cons, List.mem_singleton] at hx
    rcases hx with h | h | h
    · rw [h]; exact base64UrlChar_safe _
    · rw [h]; exact base64UrlChar_safe _
    · cases h
  | case4 => intro x hx; cases hx

theorem base64UrlChars_ne_nil (bs : List Byte) (h : bs ≠ []) : base64UrlChars bs ≠ [] := by
  cases bs with
  | nil => exact absurd rfl h
  | cons a bs =>
    cases bs with
    | nil => simp [base64UrlChars]
    | cons b bs =>
      cases bs with
      | nil => simp [base64UrlChars]
      | cons c bs => simp [base64UrlChars]

theorem dropWhile_of_all_false {α : Type} (p : α → Bool) (l : List α)
    (h : ∀ x ∈ l, p x = false) : l.dropWhile p = l := by
  cases l with
  | nil => rfl
  | cons a l => simp [List.dropWhile, h a (by simp)]

theorem trimChars_of_safe (cs : List Char) (h : ∀ c ∈ cs, isTrimChar c = false) :
    trimChars cs = cs := by
  unfold trimChars
  rw [dropWhile_of_all_false _ _ h, dropWhile_of_all_false _ _ (by simpa using h),
    List.reverse_reverse]

theorem decodeURIFrom_of_no_percent (cs : List Char) (h : '%' ∉ cs) :
    decodeURIFrom 0 cs = .ok cs := by
  induction cs with
  | nil => rfl
  | cons c cs ih =>
    have hc : c ≠ '%' := fun e => h (by simp [e])
    have hcs : '%' ∉ cs := fun e => h (by simp [e])
    rw [decodeURIFrom, if_pos hc, ih hcs]

theorem parseCookies_refresh (token : String) (h : ∀ c ∈ token.data, CookieSafe c) :
    parseCookies (some (REFRESH_COOKIE ++ "=" ++ token)) = .ok [(REFRESH_COOKIE, token)] := by
  have hsemi : ';' ∉ token.data := fun hm => (h _ hm).1 rfl
  have heq : '=' ∉ token.data := fun hm => (h _ hm).2.1 rfl
  have hpct : '%' ∉ token.data := fun hm => (h _ hm).2.2.1 rfl
  have htrim : ∀ c ∈ token.data, isTrimChar c = false := fun c hm => (h c hm).2.2.2
  have hdata : (REFRESH_COOKIE ++ "=" ++ token).data = REFRESH_COOKIE.data ++ '=' :: token.data := by
    simp [String.data_append]
  have hne : REFRESH_COOKIE ++ "=" ++ token ≠ "" := by
    intro e
    have := congrArg String.data e
    rw [hdata] at this
    simp at this
  have h1 : jsSplit ';' (REFRESH_COOKIE ++ "=" ++ token) = [REFRESH_COOKIE ++ "=" ++ token] := by
    unfold jsSplit
    rw [splitChars_of_not_mem]
    · rfl
    · rw [hdata]
      simp only [List.mem_append, List.mem_cons, not_or]
      exact ⟨by decide, by decide, hsemi⟩
  have h2 : jsSplit '=' (REFRESH_COOKIE ++ "=" ++ token) = [REFRESH_COOKIE, token] := by
    unfold jsSplit
    rw [hdata, splitChars_append_sep _ _ _ (by decide), splitChars_of_not_mem _ _ heq]
    rfl
  have h3 : jsTrim token = token := by
    unfold jsTrim
    rw [trimChars_of_safe _ htrim]
  have h4 : decodeURIComponent token = .ok token := by
    unfold decodeURIComponent decodeURIChars
    rw [decodeURIFrom_of_no_percent _ hpct]
  have h5 : jsTrim REFRESH_COOKIE = REFRESH_COOKIE := by decide
  have h6 : String.intercalate "=" [token] = token := by
    simp [String.intercalate, String.intercalate.go]
  have h7 : REFRESH_COOKIE ≠ "" := by decide
  have hpart : parseCookiePart [] (REFRESH_COOKIE ++ "=" ++ token)
      = .ok [(REFRESH_COOKIE, token)] := by
    unfold parseCookiePart
    rw [h2]
    simp only [h7, if_false, h6, h3, h4, h5]
    rfl
  unfold parseCookies
  simp only [hne, if_false, h1]
  rw [parseCookieParts, hpart]
  rfl

end Cookies

section Login

theorem findUserByEmail_mem {env : Env} {users : List User} {email : String} {user : User}
    (h : findUserByEmail env users email = some user) : user ∈ users :=
  List.mem_of_find?_eq_some h

theorem findUserById_of_unique (users : List User) (user : User)
    (hids : users.Pairwise (fun a b => a.id ≠ b.id)) (hmem : user ∈ users) :
    findUserById users user.id = some user := by
  unfold findUserById
  induction users with
  | nil => cases hmem
  | cons a rest ih =>
    rw [List.pairwise_cons] at hids
    rcases List.mem_cons.mp hmem with h | h
    · subst h
      simp
    · have hne : a.id ≠ user.id := hids.1 user h
      have hb : (a.id == user.id) = false := by simpa using hne
      rw [List.find?_cons, hb]
      exact ih hids.2 h

/-- What a login answered with a login body did. -/
theorem handleLogin_ok (env : Env) (clock : Clock) (draw : Draw) (users : List User)
    (sessions : List Session) (body : LoginBody) (user : User) (payloadUser : UserPayload)
    (accessToken accessExp refreshToken refreshExp : String) (cookies : List String)
    (stored : List Session)
    (hfind : findUserByEmail env users (jsTrim (body.email.getD "")) = some user)
    (hlogin : handleLogin env clock draw users sessions body
      = (.ok { statusCode := 200,
               payload := .login payloadUser accessToken accessExp refreshToken refreshExp,
               cookies := cookies }, stored)) :
    payloadUser = buildUserPayload user ∧
      verifyPassword env (body.password.getD "") user.passwordHash = true ∧
      refreshToken = generateRandomToken draw.tokenBytes ∧
      env.toISOString (clock.sessionExpires + REFRESH_TOKEN_TTL_MS env) = some refreshExp ∧
      ∃ newSession : Session,
        stored = clearExpiredSessions env clock.sweep sessions ++ [newSession] ∧
        newSession.userId = user.id ∧
        newSession.refreshTokenHash = hashToken env (generateRandomToken draw.tokenBytes) ∧
        newSession.expiresAt = refreshExp ∧ newSession.revokedAt = none := by
  unfold handleLogin at hlogin
  simp only at hlogin
  by_cases hempty : (jsTrim (body.email.getD "") = "" || body.password.getD "" = "") = true
  · rw [if_pos hempty] at hlogin
    simp [errorResponse, jsonResponse] at hlogin
  · rw [if_neg hempty] at hlogin
    simp only [hfind] at hlogin
    by_cases hv : (!verifyPassword env (body.password.getD "") user.passwordHash) = true
    · rw [if_pos hv] at hlogin
      simp [unauthorized, errorResponse, jsonResponse] at hlogin
    · rw [if_neg hv] at hlogin
      cases h3 : createAccessToken env clock.tokenExp clock.tokenIat user
          env.ACCESS_TOKEN_SECRET (ACCESS_TOKEN_TTL_SECONDS env) with
      | error e => simp [h3] at hlogin
      | ok tok =>
        simp only [h3] at hlogin
        unfold createRefreshSession at hlogin
        cases h1 : env.toISOString (clock.sessionExpires + REFRESH_TOKEN_TTL_MS env) with
        | none => simp [h1] at hlogin
        | some expiresAt =>
          cases h2 : env.toISOString clock.sessionCreated with
          | none => simp [h1, h2] at hlogin
          | some createdAt =>
            simp only [h1, h2, jsonResponse, createSession, Prod.mk.injEq, Except.ok.injEq,
              Response.mk.injEq, Body.login.injEq, true_and] at hlogin
            obtain ⟨⟨⟨hu, -, -, hr, he⟩, -⟩, hs⟩ := hlogin
            subst he
            exact ⟨hu.symm, by simpa using hv, hr.symm, rfl, _, hs.symm, rfl, rfl, rfl, rfl⟩

theorem sampleDigit_spec (d : Nat) (h : d < 10) :
    (Char.ofNat (48 + d)).isDigit = true ∧ (Char.ofNat (48 + d)).toNat - 48 = d := by
  interval_cases d <;> exact ⟨by decide, by decide⟩

theorem sampleDigits_spec (fuel n : Nat) (h : n < fuel) :
    (sampleDigits fuel n).all Char.isDigit = true ∧ sampleDigits fuel n ≠ [] ∧
      sampleNumber (sampleDigits fuel n) = n := by
  induction fuel generalizing n with
  | zero => omega
  | succ fuel ih =>
    have hd := sampleDigit_spec (n % 10) (Nat.mod_lt _ (by decide))
    unfold sampleDigits
    by_cases h0 : n / 10 = 0
    · simp only [h0, if_true, List.all_cons, hd.1, List.all_nil, Bool.and_self, ne_eq,
        List.cons_ne_nil, not_false_eq_true, sampleNumber, hd.2, true_and]
      omega
    · have hlt : n / 10 < fuel := by omega
      obtain ⟨h1, -, h3⟩ := ih (n / 10) hlt
      simp only [h0, if_false, List.all_cons, hd.1, h1, Bool.and_self, ne_eq, List.cons_ne_nil,
        not_false_eq_true, sampleNumber, hd.2, h3, true_and]
      omega

theorem sampleEnv_roundtrip (t : Int) (s : String) (h : sampleEnv.toISOString t = some s) :
    sampleEnv.dateParse s = some t := by
  simp only [sampleEnv, sampleToISOString] at h
  by_cases hneg : t < 0
  · simp [hneg] at h
  · simp only [hneg, if_false, Option.some.injEq] at h
    subst h
    obtain ⟨h1, h2, h3⟩ := sampleDigits_spec (t.toNat + 1) t.toNat (by omega)
    simp only [sampleEnv, sampleDateParse, h1, h2, h3, ne_eq, not_false_eq_true, and_self, if_true,
      Option.some.injEq]
    omega

end Login

/-- C2: login then session check round-trips to the same user. For every user
store with unique user ids, every session store in which no record already
carries the hash of the newly minted refresh secret, and every login body whose
email `findUserByEmail` resolves to `user`: when `handleLogin` answers 200 with
refresh secret `refreshToken` and expiry `refreshTokenExpiresAt` (so
`verifyPassword` passed), a session check presenting the cookie
`refreshToken=<refreshToken>` with its clock readings strictly before that
expiry answers 200 with a user payload whose id, email, name and role are those
of `user`. The runtime is assumed to parse back the dates it prints, and the
expiry date of the access token issued by the session check to be a valid
date. -/
theorem login_then_session (env : Env) (clock clock' : Clock) (draw : Draw)
    (users : List User) (sessions : List Session) (body : LoginBody) (user : User)
    (payloadUser : UserPayload) (accessToken accessExp refreshToken refreshExp : String)
    (cookies : List String) (expires : Int)
    (hround : ∀ t s, env.toISOString t = some s → env.dateParse s = some t)
    (hids : users.Pairwise (fun a b => a.id ≠ b.id))
    (hbytes : draw.tokenBytes.length = 48)
    (hfresh : ∀ x ∈ sessions,
      x.refreshTokenHash ≠ hashToken env (generateRandomToken draw.tokenBytes))
    (hfind : findUserByEmail env users (jsTrim (body.email.getD "")) = some user)
    (hlogin : (handleLogin env clock draw users sessions body).1
      = .ok { statusCode := 200,
              payload := .login payloadUser accessToken accessExp refreshToken refreshExp,
              cookies := cookies })
    (hexpires : env.dateParse refreshExp = some expires)
    (hsweep : clock'.sweep < expires) (hcheck : clock'.check < expires)
    (hdate : env.toISOString
      ((Int.fdiv clock'.tokenExp 1000 + ACCESS_TOKEN_TTL_SECONDS env) * 1000) ≠ none) :
    payloadUser = buildUserPayload user ∧
      verifyPassword env (body.password.getD "") user.passwordHash = true ∧
      expires = clock.sessionExpires + REFRESH_TOKEN_TTL_MS env ∧
      ∃ accessToken' accessExp',
        createAccessToken env clock'.tokenExp clock'.tokenIat user env.ACCESS_TOKEN_SECRET
          (ACCESS_TOKEN_TTL_SECONDS env) = .ok (accessToken', accessExp') ∧
        handleSession env clock' users (handleLogin env clock draw users sessions body).2
            (some (REFRESH_COOKIE ++ "=" ++ refreshToken))
          = (.ok { statusCode := 200,
                   payload := .session
                     { id := user.id, email := user.email, name := user.name, role := user.role,
                       type := user.role } accessToken' accessExp',
                   cookies := [createRefreshCookie env clock'.cookie refreshToken refreshExp] },
              clearExpiredSessions env clock'.sweep
                (handleLogin env clock draw users sessions body).2) := by
  have hpair : handleLogin env clock draw users sessions body
      = (.ok { statusCode := 200,
               payload := .login payloadUser accessToken accessExp refreshToken refreshExp,
               cookies := cookies }, (handleLogin env clock draw users sessions body).2) := by
    rw [← hlogin]
  generalize (handleLogin env clock draw users sessions body).2 = stored at hpair ⊢
  obtain ⟨hpayload, hver, htoken, hiso, newSession, hstored, hsuser, hshash, hsexp, hsrev⟩ :=
    handleLogin_ok env clock draw users sessions body user payloadUser accessToken accessExp
      refreshToken refreshExp cookies stored hfind hpair
  have hexp2 : expires = clock.sessionExpires + REFRESH_TOKEN_TTL_MS env := by
    have := hround _ _ hiso
    rw [hexpires] at this
    exact Option.some.inj this
  refine ⟨hpayload, hver, hexp2, ?_⟩
  subst htoken
  have hsafe : ∀ c ∈ (generateRandomToken draw.tokenBytes).data, CookieSafe c :=
    base64UrlChars_safe draw.tokenBytes
  have hparse := parseCookies_refresh _ hsafe
  have hget : getCookie [(REFRESH_COOKIE, generateRandomToken draw.tokenBytes)] REFRESH_COOKIE
      = some (generateRandomToken draw.tokenBytes) := by
    simp [getCookie]
  have hne : generateRandomToken draw.tokenBytes ≠ "" := by
    intro e
    have hd := congrArg String.data e
    have hbs : draw.tokenBytes ≠ [] := by
      intro h0; rw [h0] at hbytes; simp at hbytes
    exact base64UrlChars_ne_nil _ hbs hd
  have hkept : keptBySweep env clock'.sweep newSession = true := by
    simp [keptBySweep, hsexp, hexpires, hsweep, hsrev, truthy]
  have hswept : clearExpiredSessions env clock'.sweep stored
      = (clearExpiredSessions env clock.sweep sessions).filter (keptBySweep env clock'.sweep) ++
        [newSession] := by
    rw [clearExpiredSessions_filter, hstored, List.filter_append, List.filter_cons_of_pos hkept,
      List.filter_nil]
  have hfindS : findSessionByHash (clearExpiredSessions env clock'.sweep stored)
      (hashToken env (generateRandomToken draw.tokenBytes)) = some newSession := by
    rw [hswept]
    unfold findSessionByHash
    rw [List.find?_append]
    have hnone : List.find? (fun session => session.refreshTokenHash
          == hashToken env (generateRandomToken draw.tokenBytes) && !truthy session.revokedAt)
        ((clearExpiredSessions env clock.sweep sessions).filter (keptBySweep env clock'.sweep))
        = none := by
      rw [List.find?_eq_none]
      intro x hx
      have hx' : x ∈ sessions := mem_clearExpiredSessions (List.mem_filter.mp hx).1
      simp [hfresh x hx']
    rw [hnone]
    simp [hshash, hsrev, truthy]
  have huser : findUserById users newSession.userId = some user := by
    rw [hsuser]
    exact findUserById_of_unique users user hids (findUserByEmail_mem hfind)
  have hres : getSessionFromRequest env clock'.check users
      (clearExpiredSessions env clock'.sweep stored)
      (some (REFRESH_COOKIE ++ "=" ++ generateRandomToken draw.tokenBytes))
      = .ok (some (Resolved.mk (generateRandomToken draw.tokenBytes) newSession user),
          clearExpiredSessions env clock'.sweep stored) := by
    unfold getSessionFromRequest
    simp only [hparse, hget, hne, if_false, hfindS, hsexp, hexpires, not_le.mpr hcheck, huser]
  cases hiso' : env.toISOString
      ((Int.fdiv clock'.tokenExp 1000 + ACCESS_TOKEN_TTL_SECONDS env) * 1000) with
  | none => exact absurd hiso' hdate
  | some accessExp' =>
    have hat : ∃ a, createAccessToken env clock'.tokenExp clock'.tokenIat user
        env.ACCESS_TOKEN_SECRET (ACCESS_TOKEN_TTL_SECONDS env) = .ok (a, accessExp') := by
      unfold createAccessToken
      simp only [hiso']
      exact ⟨_, rfl⟩
    obtain ⟨a, ha⟩ := hat
    refine ⟨a, accessExp', ha, ?_⟩
    unfold handleSession
    simp only [hres, ha, jsonResponse, buildUserPayload, hsexp]

set_option maxRecDepth 100000 in
/-- C2 at a concrete input: `sampleMember` logs in under the sample runtime at
time 1000 and the session check with the returned refresh token, also at time
1000, answers 200 with the payload of `sampleMember`. -/
theorem login_then_session_witness :
    findUserByEmail sampleEnv [sampleUser, sampleMember] (jsTrim (sampleLogin.email.getD ""))
        = some sampleMember ∧
      (respond (handleLogin sampleEnv sampleClock sampleDraw [sampleUser, sampleMember]
          [sampleSession] sampleLogin).1).statusCode = 200 ∧
      ∃ accessToken accessExp,
        (handleSession sampleEnv sampleClock [sampleUser, sampleMember]
            (handleLogin sampleEnv sampleClock sampleDraw [sampleUser, sampleMember]
              [sampleSession] sampleLogin).2
            (some (REFRESH_COOKIE ++ "=" ++ generateRandomToken sampleDraw.tokenBytes))).1
          = .ok { statusCode := 200,
                  payload := .session
                    { id := "u2", email := "local@comercio.com", name := "Comercio de Prueba",
                      role := "local", type := "local" } accessToken accessExp,
                  cookies := [createRefreshCookie sampleEnv sampleClock.cookie
                    (generateRandomToken sampleDraw.tokenBytes) "0001069021"] } :=
  have hfind : findUserByEmail sampleEnv [sampleUser, sampleMember]
      (jsTrim (sampleLogin.email.getD "")) = some sampleMember := by rfl
  have hlogin : (handleLogin sampleEnv sampleClock sampleDraw [sampleUser, sampleMember]
      [sampleSession] sampleLogin).1
      = .ok { statusCode := 200,
              payload := .login (buildUserPayload sampleMember)
                "eyJhbGciOiJIUzI1NiIsInR5cCI6IkpXVCJ9.u2.dev-access-secreteyJhbGciOiJIUzI1NiIsInR5cCI6IkpXVCJ9_u2"
                "0001021" (generateRandomToken sampleDraw.tokenBytes) "0001069021",
              cookies := ["refreshToken=AAAAAAAAAAAAAAAAAAAAAAAAAAAAAAAAAAAAAAAAAAAAAAAAAAAAAAAAAAAAAAAA; Path=/; HttpOnly; SameSite=Lax; Max-Age=1209600"] } := by
    rfl
  have t := login_then_session sampleEnv sampleClock sampleClock sampleDraw
    [sampleUser, sampleMember] [sampleSession] sampleLogin sampleMember _ _ _ _ _ _ 1209601000
    sampleEnv_roundtrip (by decide) (by decide) (by decide) hfind hlogin (by rfl) (by decide)
    (by decide) (by decide)
  ⟨hfind, by rw [hlogin]; rfl,
    t.2.2.2.elim fun a h => h.elim fun e h2 => ⟨a, e, by rw [h2.2]; rfl⟩⟩

/-- C11: `removeSession` is idempotent and a no-op when the id is absent. For
every session list and id `x`: removing `x` twice leaves the same store as
removing it once; the store after `removeSession(x)` equals the list (same
records, same order) exactly when no record has id `x`; and in every case the
result is the list of the records with id different from `x`, unchanged and in
their original order. `removeSession` is a total function: nothing is raised. -/
theorem removeSession_idempotent (sessions : List Session) (x : String) :
    removeSession (removeSession sessions x) x = removeSession sessions x ∧
      (removeSession sessions x = sessions ↔ ∀ s ∈ sessions, s.id ≠ x) ∧
      removeSession sessions x = sessions.filter (fun s => decide (s.id ≠ x)) ∧
      (removeSession sessions x).Sublist sessions ∧
      ∀ s, s ∈ removeSession sessions x ↔ s ∈ sessions ∧ s.id ≠ x := by
  refine ⟨?_, ?_, ?_, ?_, ?_⟩
  · unfold removeSession
    rw [List.filter_filter]
    simp
  · unfold removeSession
    rw [List.filter_eq_self]
    simp
  · unfold removeSession
    congr 1
    funext s
    by_cases h : s.id = x <;> simp [h]
  · exact List.filter_sublist _
  · intro s
    unfold removeSession
    simp [List.mem_filter]

/-- C11 at a concrete input: removing the absent id `zz` leaves the sample store
as it was, and removing the present id `s1` twice is removing it once. -/
theorem removeSession_idempotent_witness :
    (∀ s ∈ [sampleSession], s.id ≠ "zz") ∧
      removeSession [sampleSession] "zz" = [sampleSession] ∧
      removeSession (removeSession [sampleSession] "s1") "s1" = [] :=
  ⟨by decide,
    (removeSession_idempotent [sampleSession] "zz").2.1.mpr (by decide),
    by decide⟩

section Seeding

/-- Running `seedDefaultUsers` a second time adds no record. -/
theorem seedDefaultUsers_twice (env : Env) (draw draw' : SeedDraw) (users : List User) :
    seedDefaultUsers env draw' (seedDefaultUsers env draw users)
      = seedDefaultUsers env draw users := by
  unfold seedDefaultUsers
  by_cases h1 : users.any (fun user => user.email == "prueba@usuario.com") = true
  · by_cases h2 : users.any (fun user => user.email == "local@comercio.com") = true
    · simp [h1, h2]
    · simp [h1, h2]
  · by_cases h2 : users.any (fun user => user.email == "local@comercio.com") = true
    · simp [h1, h2]
    · simp [h1, h2]

/-- Seeding keeps exactly-equal emails unique: when no two records have the same
email string, no two records of the seeded list have the same email string. -/
theorem seedDefaultUsers_exact_emails_unique (env : Env) (draw : SeedDraw) (users : List User)
    (h : users.Pairwise (fun a b => a.email ≠ b.email)) :
    (seedDefaultUsers env draw users).Pairwise (fun a b => a.email ≠ b.email) := by
  have step : ∀ (l : List User) (u : User), l.Pairwise (fun a b => a.email ≠ b.email) →
      l.any (fun user => user.email == u.email) = false →
      (l ++ [u]).Pairwise (fun a b => a.email ≠ b.email) := by
    intro l u hl hany
    rw [List.pairwise_append]
    refine ⟨hl, List.pairwise_singleton _ _, ?_⟩
    intro a ha b hb
    simp only [List.mem_singleton] at hb
    subst hb
    rw [List.any_eq_false] at hany
    simpa using hany a ha
  unfold seedDefaultUsers
  by_cases h1 : users.any (fun user => user.email == "prueba@usuario.com") = true
  · simp only [h1, Bool.not_true, Bool.false_eq_true, if_false]
    split
    · rename_i h2
      exact step _ _ h (by simpa using h2)
    · exact h
  · have h1' : users.any (fun user => user.email == "prueba@usuario.com") = false := by
      simpa using h1
    simp only [h1', Bool.not_false, if_true]
    have hp := step users
      (User.mk draw.clienteId "prueba@usuario.com" "Cliente de Prueba" "cliente"
        (some (hashPassword env draw.clienteSalt "1234"))) h h1'
    split
    · rename_i h2
      exact step _ _ hp (by simpa using h2)
    · exact hp

end Seeding

/-- C12 fails on a stored email written in another case: the one-record list
with email `Prueba@Usuario.com` has no two emails equal ignoring case, yet
`seedDefaultUsers` (whatever it draws) appends `prueba@usuario.com`, so the
seeded list has two records whose emails are equal ignoring case, two records
match the lookup predicate of `findUserByEmail` for `prueba@usuario.com`, and
the lookup returns the older one. -/
theorem seedDefaultUsers_case_duplicate (draw : SeedDraw) :
    EmailsUnique sampleEnv [sampleCaseUser] ∧
      ¬ EmailsUnique sampleEnv (seedDefaultUsers sampleEnv draw [sampleCaseUser]) ∧
      ((seedDefaultUsers sampleEnv draw [sampleCaseUser]).filter
        (fun user => sampleEnv.toLowerCase user.email
          == sampleEnv.toLowerCase "prueba@usuario.com")).length = 2 ∧
      findUserByEmail sampleEnv (seedDefaultUsers sampleEnv draw [sampleCaseUser])
        "prueba@usuario.com" = some sampleCaseUser := by
  have hl : sampleEnv.toLowerCase "Prueba@Usuario.com" = "prueba@usuario.com" := by decide
  have hl1 : sampleEnv.toLowerCase "prueba@usuario.com" = "prueba@usuario.com" := by decide
  have hl2 : sampleEnv.toLowerCase "local@comercio.com" = "local@comercio.com" := by decide
  have hs : seedDefaultUsers sampleEnv draw [sampleCaseUser]
      = [sampleCaseUser,
         { id := draw.clienteId, email := "prueba@usuario.com", name := "Cliente de Prueba",
           role := "cliente",
           passwordHash := some (hashPassword sampleEnv draw.clienteSalt "1234") },
         { id := draw.localId, email := "local@comercio.com", name := "Comercio de Prueba",
           role := "local",
           passwordHash := some (hashPassword sampleEnv draw.localSalt "1234") }] := by
    rfl
  refine ⟨?_, ?_, ?_, ?_⟩
  · simp [EmailsUnique]
  · rw [hs]
    simp [EmailsUnique, SameEmail, sampleCaseUser, hl, hl1]
  · rw [hs]
    simp [sampleCaseUser, hl, hl1, hl2, List.filter]
  · rw [hs]
    simp [findUserByEmail, sampleCaseUser, hl, hl1]

end Celec
